import Mathlib

/-!
Shallow embedding of the gmsh example programs shipped under
`share/doc/gmsh` (examples/api and tutorials), and proofs about them.

The numerical example `adapt_mesh.cpp` is embedded with its `double`
arithmetic modelled over an arbitrary linear ordered field `α`, with the
library routines `std::sqrt` and `std::pow` (with real exponent) passed
as explicit function parameters `sqrt`, `rpow`: the claims under study
are about the algebraic structure of the computations, which is
independent of the particular real-number model.

`std::map<std::size_t, double>` (and the node/element maps of `myMesh`)
are modelled as association lists ordered by key, which is exactly the
iteration order of `std::map`; `operator[]` in rvalue position is
modelled by `Smap.index`, which default-inserts a value when the key is
absent, as the C++ operator does.
-/

set_option linter.unusedVariables false
set_option linter.unusedSectionVars false

namespace GmshDoc

/-! ## An ordered association-list model of `std::map<std::size_t, β>` -/

/-- Model of `std::map<std::size_t, β>`: entries in iteration order.
The `std::map` class invariant (keys strictly increasing) is not baked
into the type; it is stated as `Smap.KeysSorted` and assumed where a
claim needs it. -/
abbrev Smap (β : Type) := List (Nat × β)

namespace Smap

variable {β : Type}

/-- `find m k` : the value stored at key `k`, if any (`std::map::find`). -/
def find (m : Smap β) (k : Nat) : Option β :=
  match m with
  | [] => none
  | (k', v) :: t => if k' = k then some v else find t k

/-- Lookup with a default value. -/
def findD (m : Smap β) (k : Nat) (d : β) : β := (find m k).getD d

/-- `insert k v m` : store `v` at key `k`, replacing any previous value
(`m[k] = v` on a `std::map`), keeping entries ordered by key. -/
def insert (k : Nat) (v : β) (m : Smap β) : Smap β :=
  match m with
  | [] => [(k, v)]
  | (k', v') :: t =>
    if k' < k then (k', v') :: insert k v t
    else if k' = k then (k, v) :: t
    else (k, v) :: (k', v') :: t

/-- `std::map::operator[]` read in an rvalue position: return the stored
value, default-inserting `d` when the key is absent. -/
def index (k : Nat) (d : β) (m : Smap β) : β × Smap β :=
  match find m k with
  | some v => (v, m)
  | none => (d, insert k d m)

/-- The keys of the map, in iteration order. -/
def keys (m : Smap β) : List Nat := m.map Prod.fst

/-- The `std::map` class invariant: keys strictly increase in iteration
order. -/
def KeysSorted (m : Smap β) : Prop := List.Chain' (· < ·) (keys m)

end Smap

/-! ## `adapt_mesh.cpp`: data model

`myVertex`, `myElement` and `myMesh` are flat containers filled in once;
their C++ fields are private and exposed through `const` accessors.  The
element stores its nodes, quadrature coordinates `qu,qv,qw`, weights,
physical coordinates `qx,qy,qz`, Jacobian determinants `qdet` and
Jacobian entries `qjac`, as vectors indexed by quadrature point. -/

variable {α : Type} [LinearOrderedField α]

/-- `class myVertex` of `adapt_mesh.cpp`: a tag and coordinates. -/
structure myVertex (α : Type) where
  tag : Nat
  x : α
  y : α
  z : α
  deriving DecidableEq

namespace myVertex

/-- `myVertex::distance`: `sqrt(pow(x-x',2) + pow(y-y',2) + pow(z-z',2))`,
with `std::sqrt` passed as an explicit parameter. -/
def distance (sqrt : α → α) (a b : myVertex α) : α :=
  sqrt ((a.x - b.x) ^ 2 + (a.y - b.y) ^ 2 + (a.z - b.z) ^ 2)

end myVertex

/-- A call to `exit()` after printing a message, as performed by
`myElement::maxEdge` on a non-triangle. -/
structure ExitCall where
  message : String
  code : Nat
  deriving DecidableEq

/-- `class myElement` of `adapt_mesh.cpp`. -/
structure myElement (α : Type) where
  tag : Nat
  nodes : List (myVertex α)
  qu : List α
  qv : List α
  qw : List α
  qweight : List α
  qx : List α
  qy : List α
  qz : List α
  qdet : List α
  qjac : List α

namespace myElement

/-- `myElement::maxEdge`: for a 3-node element, the largest of the three
pairwise node distances; otherwise it prints a message and calls
`exit(1)`, modelled by `Except.error`. -/
def maxEdge (sqrt : α → α) (e : myElement α) : Except ExitCall α :=
  match e.nodes with
  | [n0, n1, n2] =>
    .ok (max (n0.distance sqrt n1) (max (n0.distance sqrt n2)
         (n1.distance sqrt n2)))
  | _ => .error ⟨"maxEdge only implemented for 3-node triangles", 1⟩

end myElement

/-- `class myMesh` of `adapt_mesh.cpp`: the node map and element map.
The constructor fills both maps from data queried from the meshing
engine (`getNodes`, `getElements`, `getIntegrationPoints`,
`getJacobians`); that data is external input, so a `myMesh` here is an
arbitrary pair of maps, with the properties the constructor guarantees
(sorted keys, element nodes drawn from the node map) taken as
hypotheses where a claim needs them. -/
structure myMesh (α : Type) where
  nodes : Smap (myVertex α)
  elements : Smap (myElement α)

/-! ## `adapt_mesh.cpp`: `computeInterpolationError`

Transcribed from the two loops of the C++ function.  The maps `f_nod`
and `err_ele` are output parameters passed by reference; the function
does not clear them, so they appear as inputs here.  The reads
`f_nod[t0]`, `f_nod[t1]`, `f_nod[t2]` inside the quadrature loop use
`std::map::operator[]` on the non-const map and therefore
default-insert `0.0` for an absent key; this is modelled by threading
the map through `Smap.index`. -/

/-- One iteration of the quadrature loop of `computeInterpolationError`
(loop variable `i`), acting on the accumulator `err` and the map
`f_nod`. -/
def quadStep (f : α → α → α → α) (e : myElement α) (t0 t1 t2 : Nat)
    (i : Nat) : α × Smap α → α × Smap α :=
  fun s =>
    let u := e.qu.getD i 0
    let v := e.qv.getD i 0
    let w := e.qw.getD i 0
    let weight := e.qweight.getD i 0
    let x := e.qx.getD i 0
    let y := e.qy.getD i 0
    let z := e.qz.getD i 0
    let det := |e.qdet.getD i 0|
    let r0 := Smap.index t0 0 s.2
    let r1 := Smap.index t1 0 r0.2
    let r2 := Smap.index t2 0 r1.2
    let f_fem := r0.1 * (1 - u - v) + r1.1 * u + r2.1 * v
    (s.1 + (f x y z - f_fem) ^ 2 * det * weight, r2.2)

/-- The quadrature loop of `computeInterpolationError`:
`for(i = 0; i < e->qweight().size(); i++)`. -/
def elementErr (f : α → α → α → α) (e : myElement α) (t0 t1 t2 : Nat)
    (f_nod : Smap α) : α × Smap α :=
  (List.range e.qweight.length).foldl
    (fun s i => quadStep f e t0 t1 t2 i s) (0, f_nod)

/-- The first loop of `computeInterpolationError`: for every node of
the mesh (in map order), `f_nod[it->first] = f(v->x(), v->y(), v->z())`. -/
def nodalLoop (f : α → α → α → α) (nodes : Smap (myVertex α))
    (f_nod : Smap α) : Smap α :=
  nodes.foldl (fun m p => Smap.insert p.1 (f p.2.x p.2.y p.2.z) m) f_nod

/-- The body of the second loop of `computeInterpolationError`: when
the element has exactly 3 nodes, run the quadrature loop and store
`err_ele[it->first] = sqrt(err)`; otherwise do nothing. -/
def elemStep (f : α → α → α → α) (sqrt : α → α) (s : Smap α × Smap α)
    (p : Nat × myElement α) : Smap α × Smap α :=
  match p.2.nodes with
  | [n0, n1, n2] =>
    let r := elementErr f p.2 n0.tag n1.tag n2.tag s.1
    (r.2, Smap.insert p.1 (sqrt r.1) s.2)
  | _ => s

/-- `computeInterpolationError` of `adapt_mesh.cpp`: first store
`f_nod[tag] = f(x, y, z)` for every node of the mesh, then, for every
element with exactly 3 nodes, store in `err_ele` the square root of the
accumulated quadrature sum.  Returns the final `(f_nod, err_ele)`. -/
def computeInterpolationError (f : α → α → α → α) (sqrt : α → α)
    (mesh : myMesh α) (f_nod err_ele : Smap α) : Smap α × Smap α :=
  mesh.elements.foldl (elemStep f sqrt) (nodalLoop f mesh.nodes f_nod, err_ele)

/-! ## `adapt_mesh.cpp`: `computeSizeField`

The function uses `std::pow` with non-integral exponents; `pow` is
passed as the explicit parameter `rpow`.  The second loop looks each
`err_ele` key up in the element map and dereferences the resulting
iterator without checking it against `end()`; a missing key is
undefined behaviour, modelled by the `Option` layer (`none`).  The call
to `maxEdge` can terminate the process via `exit(1)`, modelled by the
`Except` layer. -/

/-- The body of the second loop of `computeSizeField`, for one
`err_ele` entry `p`.  `a`, `d` and `fact` are the constants computed
before the loop. -/
def sizeStep (sqrt : α → α) (rpow : α → α → α) (mesh : myMesh α)
    (a d fact : α) (N : Int) (s : Option (Except ExitCall (Smap α)))
    (p : Nat × α) : Option (Except ExitCall (Smap α)) :=
  match s with
  | none => none
  | some (.error e) => some (.error e)
  | some (.ok sf) =>
    let ri : α := rpow p.2 (2 / (2 * (1 + a))) *
      rpow a (1 / (d * (1 + a))) * rpow ((1 + a) * (N : α) / fact) (1 / d)
    match Smap.find mesh.elements p.1 with
    | none => none
    | some e =>
      match e.maxEdge sqrt with
      | .error ex => some (.error ex)
      | .ok me => some (.ok (Smap.insert p.1 (me / ri) sf))

/-- `computeSizeField` of `adapt_mesh.cpp`. -/
def computeSizeField (sqrt : α → α) (rpow : α → α → α) (mesh : myMesh α)
    (err_ele : Smap α) (N : Int) (sf_ele : Smap α) :
    Option (Except ExitCall (Smap α)) :=
  let a : α := 2
  let d : α := 2
  let fact0 : α := err_ele.foldl (fun s p => s + rpow p.2 (2 / (1 + a))) 0
  let fact : α := fact0 * (rpow a ((2 + a) / (1 + a)) + rpow a (1 / (1 + a)))
  err_ele.foldl (sizeStep sqrt rpow mesh a d fact N) (some (.ok sf_ele))

/-! ## `adapt_mesh.cpp`: `getKeysValues` -/

/-- `getKeysValues` of `adapt_mesh.cpp`: clear both output vectors, then
push each key and the one-element vector of its value, in map iteration
order.  The output parameters `keys`/`values` are passed by reference
and cleared first, so they appear as (discarded) inputs. -/
def getKeysValues (f : Smap α) (keys0 : List Nat)
    (values0 : List (List α)) : List Nat × List (List α) :=
  f.foldl (fun s p => (s.1 ++ [p.1], s.2 ++ [[p.2]])) ([], [])

/-! ## Spec-side formula for the interpolation error

`errFormulaSpec` is written from the specification sentence, to be
compared with the computation performed by the code: "the square root of
the sum over quadrature points `i` of
`(f(x_i,y_i,z_i) - (f_nod[t0]*(1-u_i-v_i) + f_nod[t1]*u_i + f_nod[t2]*v_i))^2
 * |det_i| * weight_i`" (the square root is applied at the use site). -/

/-- The sum over quadrature points stated by the specification, with
`g` standing for the nodal-value table `f_nod`. -/
def errFormulaSpec (f : α → α → α → α) (g : Nat → α) (e : myElement α)
    (t0 t1 t2 : Nat) : α :=
  ((List.range e.qweight.length).map (fun i =>
    (f (e.qx.getD i 0) (e.qy.getD i 0) (e.qz.getD i 0) -
      (g t0 * (1 - e.qu.getD i 0 - e.qv.getD i 0) +
        g t1 * e.qu.getD i 0 + g t2 * e.qv.getD i 0)) ^ 2 *
    |e.qdet.getD i 0| * e.qweight.getD i 0)).sum

/-- The nodal-value table produced by the first loop of
`computeInterpolationError` on fresh output maps, read with the
defaulted lookup that `std::map::operator[]` performs. -/
def fnodSpec (f : α → α → α → α) (mesh : myMesh α) : Nat → α :=
  fun t => Smap.findD (nodalLoop f mesh.nodes []) t 0

/-! ## `adapt_mesh.cpp`: the `const` accessors as state transformers

Each public C++ member function is re-embedded as a function from the
object state to a pair (result, state after the call), so that
read-onlyness is a statement, not a typing artefact: the state component
is the object as left by executing the member body. All member bodies
are single `return` statements reading fields (plus, for `distance` and
`maxEdge`, pure arithmetic on them). -/

/-- `myVertex::tag() const { return _tag; }` -/
def vertexTagCall (s : myVertex α) : Nat × myVertex α := (s.tag, s)

/-- `myVertex::x() const { return _x; }` -/
def vertexXCall (s : myVertex α) : α × myVertex α := (s.x, s)

/-- `myVertex::y() const { return _y; }` -/
def vertexYCall (s : myVertex α) : α × myVertex α := (s.y, s)

/-- `myVertex::z() const { return _z; }` -/
def vertexZCall (s : myVertex α) : α × myVertex α := (s.z, s)

/-- `myVertex::distance(other) const`. -/
def vertexDistanceCall (sqrt : α → α) (s other : myVertex α) :
    α × myVertex α := (s.distance sqrt other, s)

/-- `myElement::tag() const`. -/
def elementTagCall (s : myElement α) : Nat × myElement α := (s.tag, s)

/-- `myElement::nodes() const`. -/
def elementNodesCall (s : myElement α) : List (myVertex α) × myElement α :=
  (s.nodes, s)

/-- `myElement::qu() const`. -/
def elementQuCall (s : myElement α) : List α × myElement α := (s.qu, s)

/-- `myElement::qv() const`. -/
def elementQvCall (s : myElement α) : List α × myElement α := (s.qv, s)

/-- `myElement::qw() const`. -/
def elementQwCall (s : myElement α) : List α × myElement α := (s.qw, s)

/-- `myElement::qweight() const`. -/
def elementQweightCall (s : myElement α) : List α × myElement α :=
  (s.qweight, s)

/-- `myElement::qx() const`. -/
def elementQxCall (s : myElement α) : List α × myElement α := (s.qx, s)

/-- `myElement::qy() const`. -/
def elementQyCall (s : myElement α) : List α × myElement α := (s.qy, s)

/-- `myElement::qz() const`. -/
def elementQzCall (s : myElement α) : List α × myElement α := (s.qz, s)

/-- `myElement::qdet() const`. -/
def elementQdetCall (s : myElement α) : List α × myElement α := (s.qdet, s)

/-- `myElement::qjac() const`. -/
def elementQjacCall (s : myElement α) : List α × myElement α := (s.qjac, s)

/-- `myElement::maxEdge() const` (reads `_nodes`, computes distances). -/
def elementMaxEdgeCall (sqrt : α → α) (s : myElement α) :
    Except ExitCall α × myElement α := (s.maxEdge sqrt, s)

/-- `myMesh::nodes() const`. -/
def meshNodesCall (s : myMesh α) : Smap (myVertex α) × myMesh α :=
  (s.nodes, s)

/-- `myMesh::elements() const`. -/
def meshElementsCall (s : myMesh α) : Smap (myElement α) × myMesh α :=
  (s.elements, s)

/-! ## `custom_gui.cpp`: the progress-reporting block of `compute`

Inside `compute`'s loop, when `show && n > 1 && !(j % (n / 100))`
holds, the thread publishes its progress.  The statements of that block
are transcribed below in program order (`arg` is the per-thread ONELAB
parameter name, `p` the percentage counter after `p++`): -/

/-- A user-interface-related call in `custom_gui.cpp`. -/
inductive GuiEvent
  | onelabSetString (name : String) (value : String)
  | fltkLock
  | loggerWrite (message : String)
  | fltkUnlock
  | fltkAwake (action : String)
  deriving DecidableEq

/-- The statements executed by one run of the progress block of
`compute` (custom_gui.cpp lines 28-42), in program order.  `refresh`
records whether the wall-time test `getWallTime() - last_refresh > 0.1`
succeeded. -/
def progressBlock (arg : String) (p : Nat) (refresh : Bool) :
    List GuiEvent :=
  [.onelabSetString arg (toString p ++ "%"),
   .fltkLock,
   .loggerWrite (arg ++ " progress " ++ toString p ++ "%"),
   .fltkUnlock] ++
  (if refresh then [.fltkAwake "update"] else [])

/-- Whether the event at position `i` of `l` executes while the FLTK
lock is held: more `lock()` than `unlock()` calls occur before it. -/
def underLock (l : List GuiEvent) (i : Nat) : Bool :=
  (l.take i).count .fltkLock > (l.take i).count .fltkUnlock

/-! ## `custom_gui.cpp`: the `awake` throttle of `compute`

The loop calls `gmsh::logger::getWallTime()` twice per progress block:
once in the test `getWallTime() - last_refresh > 0.1` and, when the
test succeeds, once more to update `last_refresh` before calling
`gmsh::fltk::awake("update")`.  Wall-clock time is external input: each
progress block is summarised by the pair of values the two calls would
return, and the whole run by the list of those pairs. -/

/-- The times at which `compute` issues `gmsh::fltk::awake("update")`
from its progress loop: transcription of lines 38-41 of
`custom_gui.cpp`.  Each `(t1, t2)` gives the wall-clock values read by
one progress block; `last` is the running `last_refresh` (initially
`0.`). -/
def awakeTimes : List (α × α) → α → List α
  | [], _ => []
  | (t1, t2) :: rest, last =>
    if t1 - last > 1 / 10 then t1 :: awakeTimes rest t2
    else awakeTimes rest last

/-- The raw sequence of wall-clock readings, used to state that the
clock is monotone. -/
def clockTrace (steps : List (α × α)) : List α :=
  steps.flatMap fun p => [p.1, p.2]

/-- Consecutive awake times are separated by more than `1/10` of a
second. -/
def awakeGap (a b : α) : Prop := a + 1 / 10 < b

/-! ## Lifecycle of the example programs (initialize / work / finalize)

Every example program is abstracted to the sequence of Gmsh API calls
on each of its execution paths, keeping only what the lifecycle claim
is about: the position of `gmsh::initialize` / `gmshInitialize`, the
presence of other API calls (`api`, one event per maximal run of
non-lifecycle Gmsh calls), and the position of `gmsh::finalize` /
`gmshFinalize`.  A path ends when `main` returns or `exit` is called.
Each example's `paths` field lists its execution paths up to this
abstraction (paths that only differ in non-lifecycle calls, such as
`-nopopup` variants or the `chk` early exits of `test.c`, which do call
`gmshFinalize` before `exit`, are merged). -/

/-- A lifecycle-relevant event of an example program. -/
inductive LEvent
  | initCall
  | api
  | finalizeCall
  deriving DecidableEq

/-- An example program, abstracted to its lifecycle paths. -/
structure ExampleProgram where
  name : String
  paths : List (List LEvent)
  deriving DecidableEq

/-- On a path, the first Gmsh call (if any) is `initialize`. -/
def gmshCallFirstIsInit : List LEvent → Bool
  | [] => true
  | LEvent.initCall :: _ => true
  | LEvent.api :: _ => false
  | LEvent.finalizeCall :: _ => false

/-- The lifecycle discipline asserted by the specification: initialize
before any other API call, and finalize before the path ends. -/
def goodLifecycle (p : List LEvent) : Bool :=
  gmshCallFirstIsInit p && p.contains .finalizeCall

/-! The 48 example programs.  `straightPath` abbreviates the single
path `initialize; work; finalize` of a straight-line example. -/

/-- The single path of a straight-line example. -/
def straightPath : List LEvent := [.initCall, .api, .finalizeCall]

/-- A path that initializes and works but never reaches a finalize. -/
def noFinalizePath : List LEvent := [.initCall, .api]

/-- `examples/api/adapt_mesh.cpp`. -/
def adapt_mesh_cpp : ExampleProgram := ⟨"adapt_mesh.cpp", [straightPath]⟩

/-- `examples/api/boolean.cpp`. -/
def boolean_cpp : ExampleProgram := ⟨"boolean.cpp", [straightPath]⟩

/-- `examples/api/custom_gui.cpp` (the event loop exits normally; both
popup and `-nopopup` variants reach the final `finalize`). -/
def custom_gui_cpp : ExampleProgram := ⟨"custom_gui.cpp", [straightPath]⟩

/-- `examples/api/edges.cpp`: early `return 1` (without finalize) when
the mesh is hybrid. -/
def edges_cpp : ExampleProgram :=
  ⟨"edges.cpp", [straightPath, noFinalizePath]⟩

/-- `examples/api/explore.cpp`: usage message and `return 0` before any
Gmsh call when `argc < 2`. -/
def explore_cpp : ExampleProgram := ⟨"explore.cpp", [[], straightPath]⟩

/-- `examples/api/faces.cpp`: early `return 1` (without finalize) when
the mesh is hybrid. -/
def faces_cpp : ExampleProgram :=
  ⟨"faces.cpp", [straightPath, noFinalizePath]⟩

/-- `examples/api/fragment_surfaces.cpp`: `main` ends after
`fltk::run()` with no call to `finalize` at all. -/
def fragment_surfaces_cpp : ExampleProgram :=
  ⟨"fragment_surfaces.cpp", [noFinalizePath]⟩

/-- `examples/api/get_data_perf.cpp`. -/
def get_data_perf_cpp : ExampleProgram :=
  ⟨"get_data_perf.cpp", [straightPath]⟩

/-- `examples/api/gui.cpp`: `exit(0)` before any Gmsh call when
`-nopopup` is given. -/
def gui_cpp : ExampleProgram := ⟨"gui.cpp", [[], straightPath]⟩

/-- `examples/api/import_perf.c`. -/
def import_perf_c : ExampleProgram := ⟨"import_perf.c", [straightPath]⟩

/-- `examples/api/import_perf.cpp`. -/
def import_perf_cpp : ExampleProgram :=
  ⟨"import_perf.cpp", [straightPath]⟩

/-- `examples/api/onelab_run_auto.c`: usage `return 0` before any Gmsh
call when `argc < 2`; the `chk` early exits call `gmshFinalize` before
`exit`. -/
def onelab_run_auto_c : ExampleProgram :=
  ⟨"onelab_run_auto.c", [[], straightPath]⟩

/-- `examples/api/onelab_run_auto.cpp`: usage `return 0` before any
Gmsh call when `argc < 2`. -/
def onelab_run_auto_cpp : ExampleProgram :=
  ⟨"onelab_run_auto.cpp", [[], straightPath]⟩

/-- `examples/api/open.cpp`: usage `return 0` before any Gmsh call when
`argc < 2`. -/
def open_cpp : ExampleProgram := ⟨"open.cpp", [[], straightPath]⟩

/-- `examples/api/partition.cpp`. -/
def partition_cpp : ExampleProgram := ⟨"partition.cpp", [straightPath]⟩

/-- `examples/api/plugin.cpp`. -/
def plugin_cpp : ExampleProgram := ⟨"plugin.cpp", [straightPath]⟩

/-- `examples/api/simple.c`: `main` returns after `gmshWrite` and never
calls `gmshFinalize`. -/
def simple_c : ExampleProgram := ⟨"simple.c", [noFinalizePath]⟩

/-- `examples/api/spline.cpp`. -/
def spline_cpp : ExampleProgram := ⟨"spline.cpp", [straightPath]⟩

/-- `examples/api/square.cpp`. -/
def square_cpp : ExampleProgram := ⟨"square.cpp", [straightPath]⟩

/-- `examples/api/test.c`: the `chk` early exits call `gmshFinalize`
before `exit`, the normal path ends with `gmshFinalize`. -/
def test_c : ExampleProgram := ⟨"test.c", [straightPath]⟩

/-- `examples/api/view.cpp`. -/
def view_cpp : ExampleProgram := ⟨"view.cpp", [straightPath]⟩

/-- `examples/api/viewlist.cpp`. -/
def viewlist_cpp : ExampleProgram := ⟨"viewlist.cpp", [straightPath]⟩

/-- `tutorials/c++/t1.cpp`. -/
def t1_cpp : ExampleProgram := ⟨"t1.cpp", [straightPath]⟩

/-- `tutorials/c++/t14.cpp`. -/
def t14_cpp : ExampleProgram := ⟨"t14.cpp", [straightPath]⟩

/-- `tutorials/c++/t16.cpp`: the catch branch returns without calling
`finalize`. -/
def t16_cpp : ExampleProgram :=
  ⟨"t16.cpp", [noFinalizePath, straightPath]⟩

/-- `tutorials/c++/t17.cpp`: the catch branch calls `finalize` before
returning. -/
def t17_cpp : ExampleProgram :=
  ⟨"t17.cpp", [straightPath, straightPath]⟩

/-- `tutorials/c++/t18.cpp`. -/
def t18_cpp : ExampleProgram := ⟨"t18.cpp", [straightPath]⟩

/-- `tutorials/c++/t19.cpp`. -/
def t19_cpp : ExampleProgram := ⟨"t19.cpp", [straightPath]⟩

/-- `tutorials/c++/t2.cpp`. -/
def t2_cpp : ExampleProgram := ⟨"t2.cpp", [straightPath]⟩

/-- `tutorials/c++/t20.cpp`: the catch branch calls `finalize` before
returning. -/
def t20_cpp : ExampleProgram :=
  ⟨"t20.cpp", [straightPath, straightPath]⟩

/-- `tutorials/c++/t21.cpp`. -/
def t21_cpp : ExampleProgram := ⟨"t21.cpp", [straightPath]⟩

/-- `tutorials/c++/t3.cpp`. -/
def t3_cpp : ExampleProgram := ⟨"t3.cpp", [straightPath]⟩

/-- `tutorials/c++/t4.cpp`. -/
def t4_cpp : ExampleProgram := ⟨"t4.cpp", [straightPath]⟩

/-- `tutorials/c++/t5.cpp`. -/
def t5_cpp : ExampleProgram := ⟨"t5.cpp", [straightPath]⟩

/-- `tutorials/c++/t7.cpp`: the catch branch calls `finalize` before
returning. -/
def t7_cpp : ExampleProgram :=
  ⟨"t7.cpp", [straightPath, straightPath]⟩

/-- `tutorials/c++/t8.cpp`: catch branch and wrong-view-count branch
both call `finalize` before returning. -/
def t8_cpp : ExampleProgram :=
  ⟨"t8.cpp", [straightPath, straightPath, straightPath]⟩

/-- `tutorials/c++/t9.cpp`: catch branch and wrong-view-count branch
both call `finalize` before returning. -/
def t9_cpp : ExampleProgram :=
  ⟨"t9.cpp", [straightPath, straightPath, straightPath]⟩

/-- `tutorials/c++/x1.cpp`: usage `return 0` before any Gmsh call when
`argc < 2`. -/
def x1_cpp : ExampleProgram := ⟨"x1.cpp", [[], straightPath]⟩

/-- `tutorials/c++/x2.cpp`. -/
def x2_cpp : ExampleProgram := ⟨"x2.cpp", [straightPath]⟩

/-- `tutorials/c++/x3.cpp`. -/
def x3_cpp : ExampleProgram := ⟨"x3.cpp", [straightPath]⟩

/-- `tutorials/c++/x4.cpp`. -/
def x4_cpp : ExampleProgram := ⟨"x4.cpp", [straightPath]⟩

/-- `tutorials/c++/x5.cpp`. -/
def x5_cpp : ExampleProgram := ⟨"x5.cpp", [straightPath]⟩

/-- `tutorials/c++/x6.cpp`. -/
def x6_cpp : ExampleProgram := ⟨"x6.cpp", [straightPath]⟩

/-- `tutorials/c++/x7.cpp`. -/
def x7_cpp : ExampleProgram := ⟨"x7.cpp", [straightPath]⟩

/-- `tutorials/c/t1.c`. -/
def t1_c : ExampleProgram := ⟨"t1.c", [straightPath]⟩

/-- `tutorials/c/t16.c`: `if(ierr) { printf(...); return 0; }` after the
first `gmshModelOccAddBox` returns without calling `gmshFinalize`. -/
def t16_c : ExampleProgram :=
  ⟨"t16.c", [noFinalizePath, straightPath]⟩

/-- `tutorials/c/t2.c`. -/
def t2_c : ExampleProgram := ⟨"t2.c", [straightPath]⟩

/-- `tutorials/c/t6.c`. -/
def t6_c : ExampleProgram := ⟨"t6.c", [straightPath]⟩

/-- All 48 example programs of the repository. -/
def allExamples : List ExampleProgram :=
  [adapt_mesh_cpp, boolean_cpp, custom_gui_cpp, edges_cpp, explore_cpp,
   faces_cpp, fragment_surfaces_cpp, get_data_perf_cpp, gui_cpp,
   import_perf_c, import_perf_cpp, onelab_run_auto_c, onelab_run_auto_cpp,
   open_cpp, partition_cpp, plugin_cpp, simple_c, spline_cpp, square_cpp,
   test_c, view_cpp, viewlist_cpp,
   t1_cpp, t14_cpp, t16_cpp, t17_cpp, t18_cpp, t19_cpp, t2_cpp, t20_cpp,
   t21_cpp, t3_cpp, t4_cpp, t5_cpp, t7_cpp, t8_cpp, t9_cpp,
   x1_cpp, x2_cpp, x3_cpp, x4_cpp, x5_cpp, x6_cpp, x7_cpp,
   t1_c, t16_c, t2_c, t6_c]

/-- The paths on which `finalize` is missing before the path ends, per
example: the two examples that never call finalize, the four failure
early-exits that return without finalize, and the argument-check /
`-nopopup` early exits that return before any Gmsh call is made. -/
def finalizeExceptions : List (String × List LEvent) :=
  [("simple.c", noFinalizePath),
   ("fragment_surfaces.cpp", noFinalizePath),
   ("edges.cpp", noFinalizePath),
   ("faces.cpp", noFinalizePath),
   ("t16.cpp", noFinalizePath),
   ("t16.c", noFinalizePath),
   ("explore.cpp", []),
   ("gui.cpp", []),
   ("onelab_run_auto.c", []),
   ("onelab_run_auto.cpp", []),
   ("open.cpp", []),
   ("x1.cpp", [])]

/-! ## Error-code checking in the C examples

Each Gmsh C-API call occurring in one of the eight `.c` example files is
recorded with the function called, whether the call takes the `&ierr`
out-parameter (all do except `gmshFree`/`gmshMalloc`), and whether the
`chk(ierr)` macro is invoked right after it.  Calls are listed in source
order; a repeated line is recorded with `reps`. -/

/-- One Gmsh C-API call occurrence in a C example file. -/
structure CCall where
  fn : String
  takesIerr : Bool
  chkAfter : Bool
  deriving DecidableEq

/-- An `ierr`-taking call not followed by `chk(ierr)`. -/
def unchecked (fn : String) : CCall := ⟨fn, true, false⟩

/-- An `ierr`-taking call immediately followed by `chk(ierr)`. -/
def checkedCall (fn : String) : CCall := ⟨fn, true, true⟩

/-- A call that has no `ierr` out-parameter (`gmshFree`, `gmshMalloc`). -/
def noIerrCall (fn : String) : CCall := ⟨fn, false, false⟩

/-- `n` consecutive occurrences of the same call. -/
def reps (n : Nat) (c : CCall) : List CCall := List.replicate n c

/-- The Gmsh calls of `examples/api/simple.c`, in source order. -/
def simple_c_calls : List CCall :=
  [unchecked "gmshInitialize", unchecked "gmshModelAdd"] ++
  reps 4 (unchecked "gmshModelGeoAddPoint") ++
  reps 4 (unchecked "gmshModelGeoAddLine") ++
  [unchecked "gmshModelGeoAddCurveLoop",
   unchecked "gmshModelGeoAddPlaneSurface",
   unchecked "gmshModelGeoSynchronize",
   unchecked "gmshModelMeshGenerate",
   unchecked "gmshWrite"]

/-- The Gmsh calls of `examples/api/import_perf.c`, in source order. -/
def import_perf_c_calls : List CCall :=
  [unchecked "gmshInitialize"] ++
  reps 3 (unchecked "gmshLoggerGetWallTime") ++
  [unchecked "gmshModelAddDiscreteEntity"] ++
  reps 2 (unchecked "gmshLoggerGetWallTime") ++
  [unchecked "gmshModelMeshAddNodes"] ++
  reps 2 (unchecked "gmshLoggerGetWallTime") ++
  [unchecked "gmshModelMeshAddElementsByType"] ++
  reps 2 (unchecked "gmshLoggerGetWallTime") ++
  [unchecked "gmshOptionSetNumber", unchecked "gmshWrite"] ++
  reps 2 (unchecked "gmshLoggerGetWallTime") ++
  [unchecked "gmshMerge", unchecked "gmshLoggerGetWallTime",
   unchecked "gmshFltkRun", unchecked "gmshFinalize"]

/-- The Gmsh calls of `examples/api/test.c`, in source order (`main`
inlining `genGeometry`, `printMesh`, `genError`).  The `gmshFree` calls
have no `ierr` out-parameter. -/
def test_c_calls : List CCall :=
  [checkedCall "gmshInitialize", checkedCall "gmshModelAdd"] ++
  reps 4 (checkedCall "gmshModelGeoAddPoint") ++
  reps 4 (checkedCall "gmshModelGeoAddLine") ++
  [checkedCall "gmshModelGeoAddCurveLoop",
   checkedCall "gmshModelGeoAddPlaneSurface",
   checkedCall "gmshModelGeoSynchronize",
   checkedCall "gmshModelMeshGenerate",
   checkedCall "gmshWrite",
   checkedCall "gmshModelGetEntities",
   checkedCall "gmshModelMeshGetElements"] ++
  reps 5 (noIerrCall "gmshFree") ++
  [noIerrCall "gmshFree",
   checkedCall "gmshModelMeshGetElements",
   checkedCall "gmshFinalize"]

/-- The Gmsh calls of `examples/api/onelab_run_auto.c`, in source
order. -/
def onelab_run_auto_c_calls : List CCall :=
  [checkedCall "gmshInitialize", checkedCall "gmshOpen",
   checkedCall "gmshOnelabRun", checkedCall "gmshOnelabGet",
   checkedCall "gmshFinalize"]

/-- The Gmsh calls of `tutorials/c/t1.c`, in source order. -/
def t1_c_calls : List CCall :=
  [unchecked "gmshInitialize", unchecked "gmshModelAdd"] ++
  reps 5 (unchecked "gmshModelGeoAddPoint") ++
  reps 4 (unchecked "gmshModelGeoAddLine") ++
  [unchecked "gmshModelGeoAddCurveLoop",
   unchecked "gmshModelGeoAddPlaneSurface",
   unchecked "gmshModelGeoSynchronize"] ++
  reps 2 (unchecked "gmshModelAddPhysicalGroup") ++
  [unchecked "gmshModelMeshGenerate", unchecked "gmshWrite",
   unchecked "gmshOptionSetNumber", unchecked "gmshWrite",
   unchecked "gmshOptionSetNumber"] ++
  reps 2 (unchecked "gmshFltkRun") ++
  [unchecked "gmshModelOccAddRectangle",
   unchecked "gmshModelOccSynchronize",
   unchecked "gmshModelGetBoundary",
   unchecked "gmshFinalize"]

/-- The Gmsh calls of `tutorials/c/t2.c`, in source order.  `gmshMalloc`
and `gmshFree` have no `ierr` out-parameter. -/
def t2_c_calls : List CCall :=
  [unchecked "gmshInitialize", unchecked "gmshModelAdd"] ++
  reps 4 (unchecked "gmshModelGeoAddPoint") ++
  reps 4 (unchecked "gmshModelGeoAddLine") ++
  [unchecked "gmshModelGeoAddCurveLoop",
   unchecked "gmshModelGeoAddPlaneSurface",
   unchecked "gmshModelGeoSynchronize"] ++
  reps 2 (unchecked "gmshModelAddPhysicalGroup") ++
  [unchecked "gmshModelGeoAddPoint", unchecked "gmshModelGeoAddLine",
   unchecked "gmshModelGeoTranslate", unchecked "gmshModelGeoRotate",
   unchecked "gmshModelGeoCopy", unchecked "gmshModelGeoTranslate"] ++
  reps 2 (unchecked "gmshModelGeoAddLine") ++
  [noIerrCall "gmshMalloc"] ++
  reps 2 (noIerrCall "gmshFree") ++
  [unchecked "gmshModelGeoAddCurveLoop",
   unchecked "gmshModelGeoAddPlaneSurface",
   unchecked "gmshModelGeoCopy", unchecked "gmshModelGeoTranslate"] ++
  reps 3 (unchecked "gmshModelGeoAddPoint") ++
  [unchecked "gmshModelGeoSynchronize", unchecked "gmshModelGetValue",
   unchecked "gmshModelGeoAddPoint", noIerrCall "gmshFree"] ++
  reps 8 (unchecked "gmshModelGeoAddLine") ++
  (List.replicate 5 [unchecked "gmshModelGeoAddCurveLoop",
    unchecked "gmshModelGeoAddPlaneSurface"]).flatten ++
  [unchecked "gmshModelGeoAddSurfaceLoop", unchecked "gmshModelGeoAddVolume",
   unchecked "gmshModelGeoExtrude", unchecked "gmshModelGeoMeshSetSize",
   unchecked "gmshModelGeoSynchronize",
   unchecked "gmshModelAddPhysicalGroup",
   unchecked "gmshModelMeshGenerate"] ++
  reps 3 (unchecked "gmshWrite") ++
  [unchecked "gmshFltkRun", unchecked "gmshFinalize"]

/-- The Gmsh calls of `tutorials/c/t6.c`, in source order. -/
def t6_c_calls : List CCall :=
  [unchecked "gmshInitialize", unchecked "gmshModelAdd"] ++
  reps 4 (unchecked "gmshModelGeoAddPoint") ++
  reps 4 (unchecked "gmshModelGeoAddLine") ++
  [unchecked "gmshModelGeoAddCurveLoop",
   unchecked "gmshModelGeoAddPlaneSurface",
   unchecked "gmshModelGeoRemove"] ++
  reps 2 (unchecked "gmshModelGeoAddPoint") ++
  reps 3 (unchecked "gmshModelGeoAddLine") ++
  [unchecked "gmshModelGeoAddCurveLoop",
   unchecked "gmshModelGeoAddPlaneSurface"] ++
  reps 6 (unchecked "gmshModelGeoMeshSetTransfiniteCurve") ++
  [unchecked "gmshModelGeoMeshSetTransfiniteSurface",
   unchecked "gmshModelGeoMeshSetRecombine"] ++
  reps 5 (unchecked "gmshModelGeoAddPoint") ++
  reps 4 (unchecked "gmshModelGeoAddLine") ++
  [unchecked "gmshModelGeoAddCurveLoop",
   unchecked "gmshModelGeoAddPlaneSurface",
   unchecked "gmshModelGeoMeshSetTransfiniteCurve",
   unchecked "gmshOptionSetNumber",
   unchecked "gmshModelGeoSynchronize",
   unchecked "gmshModelMeshGenerate",
   unchecked "gmshWrite", unchecked "gmshFltkRun",
   unchecked "gmshFinalize"]

/-- The Gmsh calls of `tutorials/c/t16.c`, in source order.  The second
call (`gmshModelOccAddBox`) is followed by a direct `if(ierr)` test, not
by the `chk` macro. -/
def t16_c_calls : List CCall :=
  [unchecked "gmshInitialize", unchecked "gmshModelAdd"] ++
  reps 2 (unchecked "gmshModelOccAddBox") ++
  [unchecked "gmshModelOccCut", unchecked "gmshModelOccAddSphere",
   unchecked "gmshModelOccCut"] ++
  reps 2 (unchecked "gmshModelOccFragment") ++
  [unchecked "gmshModelOccSynchronize"] ++
  reps 2 (unchecked "gmshModelAddPhysicalGroup") ++
  reps 3 (noIerrCall "gmshFree") ++
  [unchecked "gmshModelGetEntities", unchecked "gmshModelGetBoundary",
   unchecked "gmshModelGetEntitiesInBoundingBox",
   unchecked "gmshModelGetEntities", unchecked "gmshModelMeshSetSize",
   noIerrCall "gmshFree",
   unchecked "gmshModelGetBoundary", unchecked "gmshModelMeshSetSize",
   noIerrCall "gmshFree",
   unchecked "gmshModelGetEntitiesInBoundingBox",
   unchecked "gmshModelMeshSetSize", noIerrCall "gmshFree",
   unchecked "gmshModelMeshGenerate", unchecked "gmshWrite",
   unchecked "gmshFltkRun", unchecked "gmshFinalize"]

/-- The call lists of all eight C example files. -/
def cExamples : List (String × List CCall) :=
  [("import_perf.c", import_perf_c_calls),
   ("onelab_run_auto.c", onelab_run_auto_c_calls),
   ("simple.c", simple_c_calls),
   ("test.c", test_c_calls),
   ("t1.c", t1_c_calls),
   ("t16.c", t16_c_calls),
   ("t2.c", t2_c_calls),
   ("t6.c", t6_c_calls)]

/-- What an expansion of the `chk(ierr)` macro does when the code is
non-zero: which items its `fprintf` prints, whether it calls
`gmshFinalize`, and the `exit` status. -/
structure ChkAbort where
  printsLine : Bool
  printsFunction : Bool
  printsFile : Bool
  callsGmshFinalize : Bool
  exitStatus : Int
  deriving DecidableEq

/-- Result of an expansion of `chk(ierr)`. -/
inductive ChkResult
  | proceed
  | abort (a : ChkAbort)
  deriving DecidableEq

/-- The `chk(ierr)` macro of `test.c`:
`fprintf(stderr, "Error on line %i in function '%s': gmsh function
returned non-zero error code: %i", __LINE__, __FUNCTION__, ierr);
gmshFinalize(NULL); exit(0)`.  It prints the line and function but not
the file, and exits with status 0 ("for ctest"). -/
def chkTest (ierr : Int) : ChkResult :=
  if ierr ≠ 0 then
    .abort ⟨true, true, false, true, 0⟩
  else .proceed

/-- The `chk(ierr)` macro of `onelab_run_auto.c`: same `fprintf`
(line and function, no file), `gmshFinalize(NULL)`, then `exit(ierr)`. -/
def chkOnelab (ierr : Int) : ChkResult :=
  if ierr ≠ 0 then
    .abort ⟨true, true, false, true, ierr⟩
  else .proceed

/-! ## try/catch in the C++ examples

Six C++ examples wrap geometry or file-loading calls in `try`/`catch`:
`t7.cpp`, `t8.cpp`, `t9.cpp`, `t16.cpp`, `t17.cpp`, `t20.cpp`.  Each is
embedded as the events before the guarded region, the events run when a
guarded call throws (the catch body through the `return`), and the
events of the remainder of `main` when nothing throws.  `geoStep` and
`meshStep` mark geometry-building and meshing calls; one event stands
for a maximal run of same-kind calls. -/

/-- An event of a C++ example `main`, for the try/catch claims. -/
inductive CppEvent
  | initCall
  | geoStep
  | guardedCall
  | diagnostic
  | meshStep
  | apiCall
  | finalizeCall
  | ret
  deriving DecidableEq

/-- A C++ example with a `try`/`catch` block. -/
structure TryCatchExample where
  name : String
  pre : List CppEvent
  onCatch : List CppEvent
  onNoThrow : List CppEvent
  deriving DecidableEq

/-- The events executed by `main`, by whether a guarded call throws. -/
def mainEvents (ex : TryCatchExample) (throws : Bool) : List CppEvent :=
  ex.pre ++ (if throws then ex.onCatch else ex.onNoThrow)

/-- `tutorials/c++/t7.cpp`: guarded `merge` of the background mesh. -/
def t7_cpp_tc : TryCatchExample :=
  ⟨"t7.cpp",
   [.initCall, .guardedCall],
   [.diagnostic, .finalizeCall, .ret],
   [.geoStep, .apiCall, .meshStep, .apiCall, .finalizeCall, .ret]⟩

/-- `tutorials/c++/t8.cpp`: geometry built first, then guarded `merge`
of three post-processing views. -/
def t8_cpp_tc : TryCatchExample :=
  ⟨"t8.cpp",
   [.initCall, .geoStep, .guardedCall],
   [.diagnostic, .finalizeCall, .ret],
   [.apiCall, .finalizeCall, .ret]⟩

/-- `tutorials/c++/t9.cpp`: guarded `merge` of a 3-D scalar view. -/
def t9_cpp_tc : TryCatchExample :=
  ⟨"t9.cpp",
   [.initCall, .geoStep, .guardedCall],
   [.diagnostic, .finalizeCall, .ret],
   [.apiCall, .finalizeCall, .ret]⟩

/-- `tutorials/c++/t16.cpp`: guarded OpenCASCADE `addBox` calls; the
catch branch returns without `finalize`. -/
def t16_cpp_tc : TryCatchExample :=
  ⟨"t16.cpp",
   [.initCall, .geoStep, .apiCall, .guardedCall],
   [.diagnostic, .ret],
   [.geoStep, .meshStep, .apiCall, .finalizeCall, .ret]⟩

/-- `tutorials/c++/t17.cpp`: square built first, then guarded `merge`
of the background mesh. -/
def t17_cpp_tc : TryCatchExample :=
  ⟨"t17.cpp",
   [.initCall, .geoStep, .guardedCall],
   [.diagnostic, .finalizeCall, .ret],
   [.apiCall, .meshStep, .apiCall, .finalizeCall, .ret]⟩

/-- `tutorials/c++/t20.cpp`: guarded `importShapes` of a STEP file. -/
def t20_cpp_tc : TryCatchExample :=
  ⟨"t20.cpp",
   [.initCall, .geoStep, .guardedCall],
   [.diagnostic, .finalizeCall, .ret],
   [.apiCall, .geoStep, .meshStep, .apiCall, .finalizeCall, .ret]⟩

/-- The six C++ examples that use `try`/`catch`. -/
def tryCatchExamples : List TryCatchExample :=
  [t7_cpp_tc, t8_cpp_tc, t9_cpp_tc, t16_cpp_tc, t17_cpp_tc, t20_cpp_tc]

/-- Is the event a remaining geometry or meshing step? -/
def isGeoOrMesh : CppEvent → Bool
  | .geoStep => true
  | .meshStep => true
  | _ => false

/-! ## Further statement-level definitions -/

/-- The `err_ele` entry the specification predicts for one element: a
binding at the element's key for a 3-node element, nothing otherwise.
`g` is the nodal-value table. -/
def elemEntry (f : α → α → α → α) (sqrt : α → α) (g : Nat → α)
    (p : Nat × myElement α) : Option (Nat × α) :=
  match p.2.nodes with
  | [n0, n1, n2] =>
    some (p.1, sqrt (errFormulaSpec f g p.2 n0.tag n1.tag n2.tag))
  | _ => none

/-- The claim predicate for `custom_gui.cpp`: every ONELAB string
publication in the block happens while the FLTK lock is held. -/
def setStringUnderLock (l : List GuiEvent) : Prop :=
  ∀ i name value, l[i]? = some (.onelabSetString name value) →
    underLock l i = true

/-- Membership of a time in the closed window `[T, T + 1]`. -/
def inWindow (T t : α) : Bool := decide (T ≤ t) && decide (t ≤ T + 1)

instance exceptDecidableEq {ε β : Type} [DecidableEq ε] [DecidableEq β] :
    DecidableEq (Except ε β) := fun a b =>
  match a, b with
  | .ok x, .ok y =>
    if h : x = y then .isTrue (by rw [h]) else .isFalse (by simp [h])
  | .error x, .error y =>
    if h : x = y then .isTrue (by rw [h]) else .isFalse (by simp [h])
  | .ok _, .error _ => .isFalse (by simp)
  | .error _, .ok _ => .isFalse (by simp)

instance : IsTrans α (awakeGap (α := α)) :=
  ⟨fun a b c hab hbc => by
    unfold awakeGap at *
    have h10 : (0 : α) < 1 / 10 := by norm_num
    linarith⟩

/-! ## Lemmas about the `std::map` model -/

namespace Smap

variable {β : Type}

@[simp] theorem keys_nil : keys ([] : Smap β) = [] := rfl

@[simp] theorem keys_cons (p : Nat × β) (m : Smap β) :
    keys (p :: m) = p.1 :: keys m := rfl

@[simp] theorem keys_append (m m' : Smap β) :
    keys (m ++ m') = keys m ++ keys m' := by
  simp [keys]

@[simp] theorem find_nil (k : Nat) : find ([] : Smap β) k = none := rfl

theorem find_cons (p : Nat × β) (m : Smap β) (k : Nat) :
    find (p :: m) k = if p.1 = k then some p.2 else find m k := rfl

/-- `find` after `insert`. This holds for arbitrary lists because
`insert` places the new binding in front of any stale binding with the
same key. -/
theorem find_insert (k : Nat) (v : β) (m : Smap β) (j : Nat) :
    find (insert k v m) j = if k = j then some v else find m j := by
  induction m with
  | nil => by_cases h : k = j <;> simp [insert, find, h]
  | cons p t ih =>
    obtain ⟨k', v'⟩ := p
    by_cases hlt : k' < k
    · by_cases hj : k' = j
      · subst hj
        have hne : ¬ k = k' := by omega
        simp [insert, hlt, find_cons, hne]
      · simp [insert, hlt, find_cons, hj, ih]
    · by_cases heq : k' = k
      · subst heq
        by_cases hj : k' = j <;> simp [insert, hlt, find_cons, hj]
      · by_cases hj : k = j
        · subst hj
          simp [insert, hlt, heq, find_cons]
        · by_cases hj' : k' = j
          · subst hj'
            simp [insert, hlt, heq, find_cons, hj]
          · simp [insert, hlt, heq, find_cons, hj, hj']

theorem find_eq_none_of_not_mem_keys {m : Smap β} {k : Nat}
    (h : k ∉ keys m) : find m k = none := by
  induction m with
  | nil => rfl
  | cons p t ih =>
    simp only [keys_cons, List.mem_cons, not_or] at h
    have hne : ¬ p.1 = k := fun he => h.1 he.symm
    simp [find_cons, hne, ih h.2]

/-- A key that occurs in `keys m` is found. -/
theorem find_ne_none_of_mem_keys {m : Smap β} {k : Nat}
    (h : k ∈ keys m) : find m k ≠ none := by
  induction m with
  | nil => simp at h
  | cons p t ih =>
    by_cases he : p.1 = k
    · simp [find_cons, he]
    · have hmem : k ∈ keys t := by
        rcases (by simpa using h : k = p.1 ∨ k ∈ keys t) with h' | h'
        · exact absurd h'.symm he
        · exact h'
      simp [find_cons, he, ih hmem]

/-- Inserting a key larger than every key of `m` appends the binding. -/
theorem insert_append_of_forall_lt {m : Smap β} {k : Nat} (v : β)
    (h : ∀ j ∈ keys m, j < k) : insert k v m = m ++ [(k, v)] := by
  induction m with
  | nil => rfl
  | cons p t ih =>
    have hp : p.1 < k := h p.1 (by simp)
    obtain ⟨k', v'⟩ := p
    simp only [insert, hp, if_true]
    rw [ih (fun j hj => h j (by simp [hj]))]
    rfl

/-- `index` does not change the lookup-with-default function of the map. -/
theorem findD_index (k : Nat) (d : β) (m : Smap β) (j : Nat) :
    findD (index k d m).2 j d = findD m j d := by
  unfold index
  cases hf : find m k with
  | some v => simp
  | none =>
    by_cases hjk : k = j
    · subst hjk
      simp [findD, find_insert, hf]
    · simp [findD, find_insert, hjk]

/-- The value read by `index` is the lookup-with-default. -/
theorem fst_index (k : Nat) (d : β) (m : Smap β) :
    (index k d m).1 = findD m k d := by
  unfold index
  cases hf : find m k with
  | some v => simp [findD, hf]
  | none => simp [findD, hf]

/-- When the key is present, `index` leaves the map unchanged. -/
theorem index_snd_of_mem (k : Nat) (d : β) (m : Smap β)
    (h : k ∈ keys m) : (index k d m).2 = m := by
  unfold index
  cases hf : find m k with
  | some v => rfl
  | none => exact absurd hf (find_ne_none_of_mem_keys h)

end Smap

/-! ## Lemmas on the loops of `computeInterpolationError` -/

/-- In a map with strictly increasing keys, every entry is found. -/
theorem Smap.find_of_mem {β : Type} {m : Smap β} {p : Nat × β}
    (hs : List.Pairwise (· < ·) (Smap.keys m)) (hp : p ∈ m) :
    Smap.find m p.1 = some p.2 := by
  induction m with
  | nil => simp at hp
  | cons q t ih =>
    rcases List.mem_cons.1 hp with h | h
    · subst h
      simp [Smap.find_cons]
    · have hlt : q.1 < p.1 := by
        have := (List.pairwise_cons.1 hs).1
        exact this p.1 (List.mem_map.2 ⟨p, h, rfl⟩)
      have hne : ¬ q.1 = p.1 := by omega
      rw [Smap.find_cons]
      simp only [hne, if_false]
      exact ih (List.pairwise_cons.1 hs).2 h

/-- The first loop of `computeInterpolationError`, run on inputs whose
keys all exceed the keys already present, appends one binding per
node. -/
theorem nodalLoop_eq_append (f : α → α → α → α) :
    ∀ (l : Smap (myVertex α)) (m0 : Smap α),
      List.Pairwise (· < ·) (Smap.keys l) →
      (∀ j ∈ Smap.keys m0, ∀ i ∈ Smap.keys l, j < i) →
      nodalLoop f l m0 = m0 ++ l.map (fun p => (p.1, f p.2.x p.2.y p.2.z))
  | [], m0, _, _ => by simp [nodalLoop]
  | p :: t, m0, hs, h0 => by
    rw [Smap.keys_cons] at hs
    have hpt := List.pairwise_cons.1 hs
    have hins : Smap.insert p.1 (f p.2.x p.2.y p.2.z) m0 =
        m0 ++ [(p.1, f p.2.x p.2.y p.2.z)] :=
      Smap.insert_append_of_forall_lt _
        (fun j hj => h0 j hj p.1
          (by rw [Smap.keys_cons]; exact List.mem_cons_self _ _))
    have h0' : ∀ j ∈ Smap.keys (m0 ++ [(p.1, f p.2.x p.2.y p.2.z)]),
        ∀ i ∈ Smap.keys t, j < i := by
      intro j hj i hi
      rw [Smap.keys_append] at hj
      rcases List.mem_append.1 hj with hj | hj
      · exact h0 j hj i
          (by rw [Smap.keys_cons]; exact List.mem_cons_of_mem _ hi)
      · have hjp : j = p.1 := by simpa [Smap.keys] using hj
        subst hjp
        exact hpt.1 i hi
    have hrec := nodalLoop_eq_append f t
      (m0 ++ [(p.1, f p.2.x p.2.y p.2.z)]) hpt.2 h0'
    show nodalLoop f t (Smap.insert p.1 (f p.2.x p.2.y p.2.z) m0) = _
    rw [hins, hrec]
    simp

/-- The keys written by the first loop are exactly the node keys. -/
theorem keys_nodalLoop (f : α → α → α → α) (l : Smap (myVertex α))
    (hs : List.Pairwise (· < ·) (Smap.keys l)) :
    Smap.keys (nodalLoop f l []) = Smap.keys l := by
  rw [nodalLoop_eq_append f l [] hs (by simp)]
  simp [Smap.keys]

/-- After the first loop, the value at each node key is the function
value at that node's coordinates. -/
theorem find_nodalLoop (f : α → α → α → α) {l : Smap (myVertex α)}
    (hs : List.Pairwise (· < ·) (Smap.keys l)) {p : Nat × myVertex α}
    (hp : p ∈ l) :
    Smap.find (nodalLoop f l []) p.1 = some (f p.2.x p.2.y p.2.z) := by
  rw [nodalLoop_eq_append f l [] hs (by simp)]
  have hkeys : Smap.keys (l.map (fun q => (q.1, f q.2.x q.2.y q.2.z))) =
      Smap.keys l := by simp [Smap.keys]
  have : ((p.1, f p.2.x p.2.y p.2.z) : Nat × α) ∈
      l.map (fun q => (q.1, f q.2.x q.2.y q.2.z)) :=
    List.mem_map.2 ⟨p, hp, rfl⟩
  simpa using Smap.find_of_mem (m := l.map (fun q => (q.1, f q.2.x q.2.y q.2.z)))
    (by rw [hkeys]; exact hs) this

/-- `find` is monotone along `index`: present bindings survive. -/
theorem Smap.find_index_some {β : Type} {m : Smap β} {j : Nat} {v : β}
    (k : Nat) (d : β) (h : Smap.find m j = some v) :
    Smap.find (Smap.index k d m).2 j = some v := by
  unfold Smap.index
  cases hf : Smap.find m k with
  | some w => exact h
  | none =>
    rw [Smap.find_insert]
    by_cases hkj : k = j
    · subst hkj
      rw [h] at hf
      cases hf
    · simp [hkj, h]

/-- One quadrature iteration: the accumulator gains the claimed term,
present bindings survive, and defaulted lookups are unchanged. -/
theorem quadStep_spec (f : α → α → α → α) (e : myElement α)
    (t0 t1 t2 i : Nat) (s : α × Smap α) :
    (quadStep f e t0 t1 t2 i s).1 =
      s.1 + (f (e.qx.getD i 0) (e.qy.getD i 0) (e.qz.getD i 0) -
        (Smap.findD s.2 t0 0 * (1 - e.qu.getD i 0 - e.qv.getD i 0) +
         Smap.findD s.2 t1 0 * e.qu.getD i 0 +
         Smap.findD s.2 t2 0 * e.qv.getD i 0)) ^ 2 *
        |e.qdet.getD i 0| * e.qweight.getD i 0 ∧
    (∀ j, Smap.findD (quadStep f e t0 t1 t2 i s).2 j 0 =
      Smap.findD s.2 j 0) ∧
    (∀ j v, Smap.find s.2 j = some v →
      Smap.find (quadStep f e t0 t1 t2 i s).2 j = some v) := by
  unfold quadStep
  refine ⟨?_, ?_, ?_⟩
  · simp only [Smap.fst_index, Smap.findD_index]
  · intro j
    simp only [Smap.findD_index]
  · intro j v h
    exact Smap.find_index_some _ _ (Smap.find_index_some _ _
      (Smap.find_index_some _ _ h))

/-- The quadrature loop computes exactly the specification's sum over
quadrature points, without changing any nodal value. -/
theorem elementErr_spec (f : α → α → α → α) (e : myElement α)
    (t0 t1 t2 : Nat) (fn : Smap α) :
    (elementErr f e t0 t1 t2 fn).1 =
      errFormulaSpec f (fun t => Smap.findD fn t 0) e t0 t1 t2 ∧
    (∀ j, Smap.findD (elementErr f e t0 t1 t2 fn).2 j 0 =
      Smap.findD fn j 0) ∧
    (∀ j v, Smap.find fn j = some v →
      Smap.find (elementErr f e t0 t1 t2 fn).2 j = some v) := by
  have main : ∀ n : Nat,
      ((List.range n).foldl (fun s i => quadStep f e t0 t1 t2 i s)
        (0, fn)).1 =
        ((List.range n).map (fun i =>
          (f (e.qx.getD i 0) (e.qy.getD i 0) (e.qz.getD i 0) -
            (Smap.findD fn t0 0 * (1 - e.qu.getD i 0 - e.qv.getD i 0) +
             Smap.findD fn t1 0 * e.qu.getD i 0 +
             Smap.findD fn t2 0 * e.qv.getD i 0)) ^ 2 *
          |e.qdet.getD i 0| * e.qweight.getD i 0)).sum ∧
      (∀ j, Smap.findD ((List.range n).foldl
          (fun s i => quadStep f e t0 t1 t2 i s) (0, fn)).2 j 0 =
        Smap.findD fn j 0) ∧
      (∀ j v, Smap.find fn j = some v →
        Smap.find ((List.range n).foldl
          (fun s i => quadStep f e t0 t1 t2 i s) (0, fn)).2 j = some v) := by
    intro n
    induction n with
    | zero => exact ⟨by simp, fun j => rfl, fun j v h => h⟩
    | succ n ih =>
      obtain ⟨ih1, ih2, ih3⟩ := ih
      set r := (List.range n).foldl (fun s i => quadStep f e t0 t1 t2 i s)
        (0, fn) with hr
      have hfold : (List.range (n + 1)).foldl
          (fun s i => quadStep f e t0 t1 t2 i s) (0, fn) =
          quadStep f e t0 t1 t2 n r := by
        rw [List.range_succ, List.foldl_append]
        rfl
      obtain ⟨q1, q2, q3⟩ := quadStep_spec f e t0 t1 t2 n r
      refine ⟨?_, ?_, ?_⟩
      · rw [hfold, q1, ih1, ih2, ih2, ih2, List.range_succ]
        simp
      · intro j
        rw [hfold, q2 j, ih2 j]
      · intro j v h
        rw [hfold]
        exact q3 j v (ih3 j v h)
  exact main e.qweight.length

/-- Unfolding of the element-loop body on a 3-node element. -/
theorem elemStep_of_triple (f : α → α → α → α) (sqrt : α → α)
    (s : Smap α × Smap α) (p : Nat × myElement α) (n0 n1 n2 : myVertex α)
    (h : p.2.nodes = [n0, n1, n2]) :
    elemStep f sqrt s p =
      ((elementErr f p.2 n0.tag n1.tag n2.tag s.1).2,
       Smap.insert p.1
         (sqrt (elementErr f p.2 n0.tag n1.tag n2.tag s.1).1) s.2) := by
  unfold elemStep
  rw [h]

/-- The element-loop body skips elements that are not 3-node. -/
theorem elemStep_of_non3 (f : α → α → α → α) (sqrt : α → α)
    (s : Smap α × Smap α) (p : Nat × myElement α)
    (h : p.2.nodes.length ≠ 3) : elemStep f sqrt s p = s := by
  unfold elemStep
  rcases hl : p.2.nodes with _ | ⟨a, _ | ⟨b, _ | ⟨c, _ | t4⟩⟩⟩ <;> try rfl
  exact absurd (by rw [hl]; rfl) h

/-- Unfolding of the specification's element entry on a 3-node
element. -/
theorem elemEntry_of_triple (f : α → α → α → α) (sqrt : α → α)
    (g : Nat → α) (p : Nat × myElement α) (n0 n1 n2 : myVertex α)
    (h : p.2.nodes = [n0, n1, n2]) :
    elemEntry f sqrt g p =
      some (p.1, sqrt (errFormulaSpec f g p.2 n0.tag n1.tag n2.tag)) := by
  unfold elemEntry
  rw [h]

/-- The specification predicts no entry for an element that is not
3-node. -/
theorem elemEntry_of_non3 (f : α → α → α → α) (sqrt : α → α)
    (g : Nat → α) (p : Nat × myElement α)
    (h : p.2.nodes.length ≠ 3) : elemEntry f sqrt g p = none := by
  unfold elemEntry
  rcases hl : p.2.nodes with _ | ⟨a, _ | ⟨b, _ | ⟨c, _ | t4⟩⟩⟩ <;> try rfl
  exact absurd (by rw [hl]; rfl) h

/-- The element entry, when present, is keyed by the element's key. -/
theorem elemEntry_key (f : α → α → α → α) (sqrt : α → α) (g : Nat → α)
    (p : Nat × myElement α) (r : Nat × α)
    (h : elemEntry f sqrt g p = some r) : r.1 = p.1 := by
  unfold elemEntry at h
  rcases hl : p.2.nodes with _ | ⟨a, _ | ⟨b, _ | ⟨c, _ | t4⟩⟩⟩ <;>
    rw [hl] at h
  · exact Option.noConfusion h
  · exact Option.noConfusion h
  · exact Option.noConfusion h
  · exact (congrArg Prod.fst (Option.some.inj h)).symm
  · exact Option.noConfusion h

/-- The element entry depends on `g` only extensionally. -/
theorem elemEntry_congr (f : α → α → α → α) (sqrt : α → α)
    {g g' : Nat → α} (hg : ∀ t, g t = g' t) (p : Nat × myElement α) :
    elemEntry f sqrt g p = elemEntry f sqrt g' p := by
  have : g = g' := funext hg
  rw [this]

/-- The second loop of `computeInterpolationError`: on a list of
elements whose keys strictly increase and exceed every key already in
`err_ele`, the loop appends exactly the specification's entries, and
the nodal map keeps its defaulted lookups and its present bindings. -/
theorem elemFold_spec (f : α → α → α → α) (sqrt : α → α) :
    ∀ (l : Smap (myElement α)) (fn ee : Smap α),
      List.Pairwise (· < ·) (Smap.keys l) →
      (∀ j ∈ Smap.keys ee, ∀ i ∈ Smap.keys l, j < i) →
      (l.foldl (elemStep f sqrt) (fn, ee)).2 =
        ee ++ l.filterMap (elemEntry f sqrt (fun t => Smap.findD fn t 0)) ∧
      (∀ j, Smap.findD (l.foldl (elemStep f sqrt) (fn, ee)).1 j 0 =
        Smap.findD fn j 0) ∧
      (∀ j v, Smap.find fn j = some v →
        Smap.find (l.foldl (elemStep f sqrt) (fn, ee)).1 j = some v)
  | [], fn, ee, _, _ => ⟨by simp, fun j => rfl, fun j v h => h⟩
  | p :: t, fn, ee, hs, h0 => by
    rw [Smap.keys_cons] at hs
    have hpt := List.pairwise_cons.1 hs
    by_cases h3 : p.2.nodes.length = 3
    · obtain ⟨n0, n1, n2, hn⟩ := List.length_eq_three.1 h3
      have hstep := elemStep_of_triple f sqrt (fn, ee) p n0 n1 n2 hn
      obtain ⟨e1, e2, e3⟩ := elementErr_spec f p.2 n0.tag n1.tag n2.tag fn
      set fn' := (elementErr f p.2 n0.tag n1.tag n2.tag fn).2 with hfn'
      set v := sqrt (elementErr f p.2 n0.tag n1.tag n2.tag fn).1 with hv
      have hins : Smap.insert p.1 v ee = ee ++ [(p.1, v)] :=
        Smap.insert_append_of_forall_lt _
          (fun j hj => h0 j hj p.1
            (by rw [Smap.keys_cons]; exact List.mem_cons_self _ _))
      have h0' : ∀ j ∈ Smap.keys (ee ++ [(p.1, v)]),
          ∀ i ∈ Smap.keys t, j < i := by
        intro j hj i hi
        rw [Smap.keys_append] at hj
        rcases List.mem_append.1 hj with hj | hj
        · exact h0 j hj i
            (by rw [Smap.keys_cons]; exact List.mem_cons_of_mem _ hi)
        · have hjp : j = p.1 := by simpa [Smap.keys] using hj
          subst hjp
          exact hpt.1 i hi
      obtain ⟨ih1, ih2, ih3⟩ := elemFold_spec f sqrt t fn' (ee ++ [(p.1, v)])
        hpt.2 h0'
      have hfold : ((p :: t).foldl (elemStep f sqrt) (fn, ee)) =
          t.foldl (elemStep f sqrt) (fn', Smap.insert p.1 v ee) := by
        show t.foldl (elemStep f sqrt) (elemStep f sqrt (fn, ee) p) = _
        rw [hstep]
      refine ⟨?_, ?_, ?_⟩
      · rw [hfold, hins, ih1]
        have hmap : t.filterMap (elemEntry f sqrt (fun u => Smap.findD fn' u 0)) =
            t.filterMap (elemEntry f sqrt (fun u => Smap.findD fn u 0)) := by
          apply List.filterMap_congr
          intro q hq
          exact elemEntry_congr f sqrt (fun u => e2 u) q
        rw [hmap]
        have hhead : elemEntry f sqrt (fun u => Smap.findD fn u 0) p =
            some (p.1, v) := by
          rw [elemEntry_of_triple f sqrt _ p n0 n1 n2 hn, hv, e1]
        rw [List.filterMap_cons, hhead]
        simp
      · intro j
        rw [hfold, hins, ih2 j, e2 j]
      · intro j v' h
        rw [hfold, hins]
        exact ih3 j v' (e3 j v' h)
    · have hstep := elemStep_of_non3 f sqrt (fn, ee) p h3
      have h0' : ∀ j ∈ Smap.keys ee, ∀ i ∈ Smap.keys t, j < i :=
        fun j hj i hi => h0 j hj i
          (by rw [Smap.keys_cons]; exact List.mem_cons_of_mem _ hi)
      obtain ⟨ih1, ih2, ih3⟩ := elemFold_spec f sqrt t fn ee hpt.2 h0'
      have hfold : ((p :: t).foldl (elemStep f sqrt) (fn, ee)) =
          t.foldl (elemStep f sqrt) (fn, ee) := by
        show t.foldl (elemStep f sqrt) (elemStep f sqrt (fn, ee) p) = _
        rw [hstep]
      refine ⟨?_, ?_, ?_⟩
      · rw [hfold, ih1, List.filterMap_cons,
          elemEntry_of_non3 f sqrt _ p h3]
      · intro j
        rw [hfold, ih2 j]
      · intro j v' h
        rw [hfold]
        exact ih3 j v' h

/-- Looking an element key up in the list of specification entries. -/
theorem find_filterMap_elemEntry (f : α → α → α → α) (sqrt : α → α)
    (g : Nat → α) :
    ∀ (l : Smap (myElement α)), List.Pairwise (· < ·) (Smap.keys l) →
      ∀ p ∈ l, ∀ r, elemEntry f sqrt g p = some r →
        Smap.find (l.filterMap (elemEntry f sqrt g)) p.1 = some r.2
  | [], _, p, hp, _, _ => by simp at hp
  | q :: t, hs, p, hp, r, hr => by
    rw [Smap.keys_cons] at hs
    have hpt := List.pairwise_cons.1 hs
    rw [List.filterMap_cons]
    cases hq : elemEntry f sqrt g q with
    | none =>
      rcases List.mem_cons.1 hp with h | h
      · subst h
        rw [hq] at hr
        exact Option.noConfusion hr
      · exact find_filterMap_elemEntry f sqrt g t hpt.2 p h r hr
    | some rq =>
      have hkey : rq.1 = q.1 := elemEntry_key f sqrt g q rq hq
      rcases List.mem_cons.1 hp with h | h
      · subst h
        rw [hq] at hr
        cases hr
        rw [Smap.find_cons]
        simp [hkey]
      · have hlt : q.1 < p.1 :=
          hpt.1 p.1 (List.mem_map.2 ⟨p, h, rfl⟩)
        rw [Smap.find_cons]
        have : ¬ rq.1 = p.1 := by omega
        simp only [this, if_false]
        exact find_filterMap_elemEntry f sqrt g t hpt.2 p h r hr

/-- The keys of the specification entries are the keys of the 3-node
elements, in order. -/
theorem keys_filterMap_elemEntry (f : α → α → α → α) (sqrt : α → α)
    (g : Nat → α) :
    ∀ l : Smap (myElement α),
      Smap.keys (l.filterMap (elemEntry f sqrt g)) =
        (l.filter (fun p => p.2.nodes.length == 3)).map Prod.fst
  | [] => rfl
  | q :: t => by
    rw [List.filterMap_cons, List.filter_cons]
    by_cases h3 : q.2.nodes.length = 3
    · obtain ⟨n0, n1, n2, hn⟩ := List.length_eq_three.1 h3
      rw [elemEntry_of_triple f sqrt g q n0 n1 n2 hn]
      simp only [h3, beq_self_eq_true, if_true, Smap.keys_cons, List.map_cons]
      rw [keys_filterMap_elemEntry f sqrt g t]
    · rw [elemEntry_of_non3 f sqrt g q h3]
      have : (q.2.nodes.length == 3) = false := by
        simpa using h3
      simp only [this, Bool.false_eq_true, if_false]
      exact keys_filterMap_elemEntry f sqrt g t

/-- The quadrature loop leaves the nodal map untouched when the three
tags are already present. -/
theorem elementErr_preserve (f : α → α → α → α) (e : myElement α)
    (t0 t1 t2 : Nat) (fn : Smap α) (h0 : t0 ∈ Smap.keys fn)
    (h1 : t1 ∈ Smap.keys fn) (h2 : t2 ∈ Smap.keys fn) :
    (elementErr f e t0 t1 t2 fn).2 = fn := by
  have main : ∀ n : Nat,
      ((List.range n).foldl (fun s i => quadStep f e t0 t1 t2 i s)
        (0, fn)).2 = fn := by
    intro n
    induction n with
    | zero => rfl
    | succ n ih =>
      rw [List.range_succ, List.foldl_append]
      set r := (List.range n).foldl (fun s i => quadStep f e t0 t1 t2 i s)
        (0, fn) with hr
      show (quadStep f e t0 t1 t2 n r).2 = fn
      unfold quadStep
      simp only
      rw [ih, Smap.index_snd_of_mem t0 0 fn h0,
        Smap.index_snd_of_mem t1 0 fn h1, Smap.index_snd_of_mem t2 0 fn h2]
  exact main e.qweight.length

/-- The element loop leaves the nodal map untouched when every 3-node
element's tags are already present. -/
theorem elemFold_preserve (f : α → α → α → α) (sqrt : α → α) :
    ∀ (l : Smap (myElement α)) (fn ee : Smap α),
      (∀ p ∈ l, ∀ n0 n1 n2, p.2.nodes = [n0, n1, n2] →
        n0.tag ∈ Smap.keys fn ∧ n1.tag ∈ Smap.keys fn ∧
        n2.tag ∈ Smap.keys fn) →
      (l.foldl (elemStep f sqrt) (fn, ee)).1 = fn
  | [], fn, ee, _ => rfl
  | p :: t, fn, ee, htags => by
    by_cases h3 : p.2.nodes.length = 3
    · obtain ⟨n0, n1, n2, hn⟩ := List.length_eq_three.1 h3
      obtain ⟨k0, k1, k2⟩ := htags p (List.mem_cons_self _ _) n0 n1 n2 hn
      have hpres := elementErr_preserve f p.2 n0.tag n1.tag n2.tag fn k0 k1 k2
      have hstep := elemStep_of_triple f sqrt (fn, ee) p n0 n1 n2 hn
      have hfold : ((p :: t).foldl (elemStep f sqrt) (fn, ee)) =
          t.foldl (elemStep f sqrt)
            (fn, Smap.insert p.1
              (sqrt (elementErr f p.2 n0.tag n1.tag n2.tag fn).1) ee) := by
        show t.foldl (elemStep f sqrt) (elemStep f sqrt (fn, ee) p) = _
        rw [hstep, hpres]
      rw [hfold]
      exact elemFold_preserve f sqrt t fn _
        (fun q hq => htags q (List.mem_cons_of_mem _ hq))
    · have hstep := elemStep_of_non3 f sqrt (fn, ee) p h3
      have hfold : ((p :: t).foldl (elemStep f sqrt) (fn, ee)) =
          t.foldl (elemStep f sqrt) (fn, ee) := by
        show t.foldl (elemStep f sqrt) (elemStep f sqrt (fn, ee) p) = _
        rw [hstep]
      rw [hfold]
      exact elemFold_preserve f sqrt t fn ee
        (fun q hq => htags q (List.mem_cons_of_mem _ hq))

/-- C1: for every mesh and nodal function `f`,
`computeInterpolationError` first stores `f_nod[t] = f(x,y,z)` for
every node `t` of the mesh at coordinates `(x,y,z)`, and then, for
every element with exactly 3 nodes with tags `t0,t1,t2`, stores in
`err_ele` the square root of the sum over quadrature points `i` of
`(f(x_i,y_i,z_i) - (f_nod[t0]*(1-u_i-v_i) + f_nod[t1]*u_i +
f_nod[t2]*v_i))^2 * |det_i| * weight_i`.  The map-key hypotheses are
the `std::map` class invariant of `myMesh`'s two maps. -/
theorem computeInterpolationError_spec (f : α → α → α → α) (sqrt : α → α)
    (mesh : myMesh α) (hn : Smap.KeysSorted mesh.nodes)
    (he : Smap.KeysSorted mesh.elements) :
    (∀ p ∈ mesh.nodes,
      Smap.find (computeInterpolationError f sqrt mesh [] []).1 p.1 =
        some (f p.2.x p.2.y p.2.z)) ∧
    (∀ p ∈ mesh.elements, ∀ n0 n1 n2, p.2.nodes = [n0, n1, n2] →
      Smap.find (computeInterpolationError f sqrt mesh [] []).2 p.1 =
        some (sqrt (errFormulaSpec f (fnodSpec f mesh) p.2
          n0.tag n1.tag n2.tag))) := by
  have hpn : List.Pairwise (· < ·) (Smap.keys mesh.nodes) :=
    List.chain'_iff_pairwise.1 hn
  have hpe : List.Pairwise (· < ·) (Smap.keys mesh.elements) :=
    List.chain'_iff_pairwise.1 he
  obtain ⟨h1, h2, h3⟩ := elemFold_spec f sqrt mesh.elements
    (nodalLoop f mesh.nodes []) [] hpe (by simp)
  constructor
  · intro p hp
    exact h3 p.1 _ (find_nodalLoop f hpn hp)
  · intro p hp n0 n1 n2 hnodes
    have hcie : (computeInterpolationError f sqrt mesh [] []).2 =
        mesh.elements.filterMap
          (elemEntry f sqrt (fun t =>
            Smap.findD (nodalLoop f mesh.nodes []) t 0)) := by
      show (mesh.elements.foldl (elemStep f sqrt)
        (nodalLoop f mesh.nodes [], [])).2 = _
      rw [h1]
      rfl
    have hfg : (fun t => Smap.findD (nodalLoop f mesh.nodes []) t 0) =
        fnodSpec f mesh := rfl
    rw [hcie, hfg]
    have hentry : elemEntry f sqrt (fnodSpec f mesh) p =
        some (p.1, sqrt (errFormulaSpec f (fnodSpec f mesh) p.2
          n0.tag n1.tag n2.tag)) :=
      elemEntry_of_triple f sqrt _ p n0 n1 n2 hnodes
    exact find_filterMap_elemEntry f sqrt (fnodSpec f mesh)
      mesh.elements hpe p hp _ hentry

/-- Witness for C1: a one-triangle mesh over `ℚ` with `f = x + y + z`
and `sqrt` the identity.  The single quadrature point has `u = v = 0`,
weight `1`, determinant `1`, physical point the origin, so the stored
error is `|f(0,0,0) - f_nod[1]|²·1·1 = 0` under the formula. -/
theorem computeInterpolationError_spec_witness :
    Smap.find (computeInterpolationError
        (fun x y z : ℚ => x + y + z) id
        ⟨[(1, ⟨1, 0, 0, 0⟩), (2, ⟨2, 1, 0, 0⟩), (3, ⟨3, 0, 1, 0⟩)],
         [(7, ⟨7, [⟨1, 0, 0, 0⟩, ⟨2, 1, 0, 0⟩, ⟨3, 0, 1, 0⟩],
            [0], [0], [0], [1], [0], [0], [0], [1], []⟩)]⟩ [] []).1 1 =
      some 0 ∧
    Smap.find (computeInterpolationError
        (fun x y z : ℚ => x + y + z) id
        ⟨[(1, ⟨1, 0, 0, 0⟩), (2, ⟨2, 1, 0, 0⟩), (3, ⟨3, 0, 1, 0⟩)],
         [(7, ⟨7, [⟨1, 0, 0, 0⟩, ⟨2, 1, 0, 0⟩, ⟨3, 0, 1, 0⟩],
            [0], [0], [0], [1], [0], [0], [0], [1], []⟩)]⟩ [] []).2 7 =
      some 0 := by
  have h := computeInterpolationError_spec
    (fun x y z : ℚ => x + y + z) id
    ⟨[(1, ⟨1, 0, 0, 0⟩), (2, ⟨2, 1, 0, 0⟩), (3, ⟨3, 0, 1, 0⟩)],
     [(7, ⟨7, [⟨1, 0, 0, 0⟩, ⟨2, 1, 0, 0⟩, ⟨3, 0, 1, 0⟩],
        [0], [0], [0], [1], [0], [0], [0], [1], []⟩)]⟩
    (by simp [Smap.KeysSorted, Smap.keys])
    (by simp [Smap.KeysSorted, Smap.keys])
  constructor
  · have := h.1 (1, ⟨1, 0, 0, 0⟩) (by simp)
    simpa using this
  · have := h.2 (7, ⟨7, [⟨1, 0, 0, 0⟩, ⟨2, 1, 0, 0⟩, ⟨3, 0, 1, 0⟩],
        [0], [0], [0], [1], [0], [0], [0], [1], []⟩) (by simp)
        ⟨1, 0, 0, 0⟩ ⟨2, 1, 0, 0⟩ ⟨3, 0, 1, 0⟩ rfl
    rw [this]
    norm_num [errFormulaSpec, fnodSpec, nodalLoop, Smap.insert, Smap.findD,
      Smap.find]

/-- C8: `computeInterpolationError` writes an `err_ele` entry exactly
for the elements whose node list has size 3 — every other element is
silently skipped (no entry, no error; the function is total) — while
`f_nod` receives exactly one entry per node of the mesh (the key lists
are equal, and map keys are distinct).  The tag hypothesis is the
`myMesh` constructor invariant that element nodes are drawn from the
node map. -/
theorem computeInterpolationError_keys (f : α → α → α → α) (sqrt : α → α)
    (mesh : myMesh α) (hn : Smap.KeysSorted mesh.nodes)
    (he : Smap.KeysSorted mesh.elements)
    (htags : ∀ p ∈ mesh.elements, ∀ n0 n1 n2, p.2.nodes = [n0, n1, n2] →
      n0.tag ∈ Smap.keys mesh.nodes ∧ n1.tag ∈ Smap.keys mesh.nodes ∧
      n2.tag ∈ Smap.keys mesh.nodes) :
    Smap.keys (computeInterpolationError f sqrt mesh [] []).1 =
      Smap.keys mesh.nodes ∧
    Smap.keys (computeInterpolationError f sqrt mesh [] []).2 =
      (mesh.elements.filter (fun p => p.2.nodes.length == 3)).map
        Prod.fst := by
  have hpn : List.Pairwise (· < ·) (Smap.keys mesh.nodes) :=
    List.chain'_iff_pairwise.1 hn
  have hpe : List.Pairwise (· < ·) (Smap.keys mesh.elements) :=
    List.chain'_iff_pairwise.1 he
  have hkeys0 : Smap.keys (nodalLoop f mesh.nodes []) =
      Smap.keys mesh.nodes := keys_nodalLoop f mesh.nodes hpn
  constructor
  · have hpres : (mesh.elements.foldl (elemStep f sqrt)
        (nodalLoop f mesh.nodes [], [])).1 = nodalLoop f mesh.nodes [] :=
      elemFold_preserve f sqrt mesh.elements _ []
        (fun p hp n0 n1 n2 hnd => by
          obtain ⟨k0, k1, k2⟩ := htags p hp n0 n1 n2 hnd
          rw [hkeys0]
          exact ⟨k0, k1, k2⟩)
    show Smap.keys (mesh.elements.foldl (elemStep f sqrt)
      (nodalLoop f mesh.nodes [], [])).1 = _
    rw [hpres, hkeys0]
  · obtain ⟨h1, _, _⟩ := elemFold_spec f sqrt mesh.elements
      (nodalLoop f mesh.nodes []) [] hpe (by simp)
    show Smap.keys (mesh.elements.foldl (elemStep f sqrt)
      (nodalLoop f mesh.nodes [], [])).2 = _
    rw [h1]
    simpa using keys_filterMap_elemEntry f sqrt
      (fun t => Smap.findD (nodalLoop f mesh.nodes []) t 0) mesh.elements

/-- Witness for C8: a mesh over `ℚ` with one triangle and one 2-node
element; `err_ele` gets a key only for the triangle, `f_nod` one key
per node. -/
theorem computeInterpolationError_keys_witness :
    Smap.keys (computeInterpolationError
        (fun x y z : ℚ => x * y * z) id
        ⟨[(1, ⟨1, 0, 0, 0⟩), (2, ⟨2, 1, 0, 0⟩), (3, ⟨3, 0, 1, 0⟩)],
         [(5, ⟨5, [⟨1, 0, 0, 0⟩, ⟨2, 1, 0, 0⟩],
            [0], [0], [0], [1], [0], [0], [0], [1], []⟩),
          (7, ⟨7, [⟨1, 0, 0, 0⟩, ⟨2, 1, 0, 0⟩, ⟨3, 0, 1, 0⟩],
            [0], [0], [0], [1], [0], [0], [0], [1], []⟩)]⟩ [] []).1 =
      [1, 2, 3] ∧
    Smap.keys (computeInterpolationError
        (fun x y z : ℚ => x * y * z) id
        ⟨[(1, ⟨1, 0, 0, 0⟩), (2, ⟨2, 1, 0, 0⟩), (3, ⟨3, 0, 1, 0⟩)],
         [(5, ⟨5, [⟨1, 0, 0, 0⟩, ⟨2, 1, 0, 0⟩],
            [0], [0], [0], [1], [0], [0], [0], [1], []⟩),
          (7, ⟨7, [⟨1, 0, 0, 0⟩, ⟨2, 1, 0, 0⟩, ⟨3, 0, 1, 0⟩],
            [0], [0], [0], [1], [0], [0], [0], [1], []⟩)]⟩ [] []).2 =
      [7] := by
  have h := computeInterpolationError_keys
    (fun x y z : ℚ => x * y * z) id
    ⟨[(1, ⟨1, 0, 0, 0⟩), (2, ⟨2, 1, 0, 0⟩), (3, ⟨3, 0, 1, 0⟩)],
     [(5, ⟨5, [⟨1, 0, 0, 0⟩, ⟨2, 1, 0, 0⟩],
        [0], [0], [0], [1], [0], [0], [0], [1], []⟩),
      (7, ⟨7, [⟨1, 0, 0, 0⟩, ⟨2, 1, 0, 0⟩, ⟨3, 0, 1, 0⟩],
        [0], [0], [0], [1], [0], [0], [0], [1], []⟩)]⟩
    (by simp [Smap.KeysSorted, Smap.keys])
    (by simp [Smap.KeysSorted, Smap.keys])
    (by
      intro p hp n0 n1 n2 hnd
      rcases List.mem_cons.1 hp with h5 | hp2
      · subst h5
        cases hnd
      · have h7 : p = (7, ⟨7, [⟨1, 0, 0, 0⟩, ⟨2, 1, 0, 0⟩, ⟨3, 0, 1, 0⟩],
            [0], [0], [0], [1], [0], [0], [0], [1], []⟩) := by
          simpa using hp2
        subst h7
        obtain ⟨rfl, rfl, rfl⟩ :
            n0 = (⟨1, 0, 0, 0⟩ : myVertex ℚ) ∧
            n1 = (⟨2, 1, 0, 0⟩ : myVertex ℚ) ∧
            n2 = (⟨3, 0, 1, 0⟩ : myVertex ℚ) := by
          have := hnd
          simp only at this
          exact ⟨(List.cons.inj this).1.symm,
            (List.cons.inj (List.cons.inj this).2).1.symm,
            (List.cons.inj (List.cons.inj (List.cons.inj this).2).2).1.symm⟩
        simp [Smap.keys])
  refine ⟨?_, ?_⟩
  · rw [h.1]
    rfl
  · rw [h.2]
    rfl

/-! ## Lemmas for `maxEdge` and `computeSizeField` -/

/-- `maxEdge` on a 3-node element. -/
theorem maxEdge_of_triple (sqrt : α → α) (e : myElement α)
    (n0 n1 n2 : myVertex α) (h : e.nodes = [n0, n1, n2]) :
    e.maxEdge sqrt = .ok (max (n0.distance sqrt n1)
      (max (n0.distance sqrt n2) (n1.distance sqrt n2))) := by
  unfold myElement.maxEdge
  rw [h]

/-- `maxEdge` on anything else prints and exits. -/
theorem maxEdge_of_non3 (sqrt : α → α) (e : myElement α)
    (h : e.nodes.length ≠ 3) :
    e.maxEdge sqrt =
      .error ⟨"maxEdge only implemented for 3-node triangles", 1⟩ := by
  unfold myElement.maxEdge
  rcases hl : e.nodes with _ | ⟨a, _ | ⟨b, _ | ⟨c, _ | t4⟩⟩⟩ <;> try rfl
  exact absurd (by rw [hl]; rfl) h

/-- A successful `maxEdge` forces a 3-node element. -/
theorem maxEdge_ok_three (sqrt : α → α) (e : myElement α) (v : α)
    (h : e.maxEdge sqrt = .ok v) : e.nodes.length = 3 := by
  by_contra h3
  rw [maxEdge_of_non3 sqrt e h3] at h
  exact Except.noConfusion h

/-- Once the size-field loop has hit undefined behaviour (a missing
element), it stays there. -/
theorem sizeFold_none (sqrt : α → α) (rpow : α → α → α) (mesh : myMesh α)
    (a d fact : α) (N : Int) :
    ∀ l : Smap α, l.foldl (sizeStep sqrt rpow mesh a d fact N) none =
      none
  | [] => rfl
  | p :: t => sizeFold_none sqrt rpow mesh a d fact N t

/-- Once the size-field loop has exited (via `maxEdge`), it stays
exited. -/
theorem sizeFold_error (sqrt : α → α) (rpow : α → α → α) (mesh : myMesh α)
    (a d fact : α) (N : Int) (ex : ExitCall) :
    ∀ l : Smap α,
      l.foldl (sizeStep sqrt rpow mesh a d fact N) (some (.error ex)) =
        some (.error ex)
  | [] => rfl
  | p :: t => sizeFold_error sqrt rpow mesh a d fact N ex t

/-- If the size-field loop runs to completion, every processed key
named an existing 3-node element. -/
theorem sizeFold_complete (sqrt : α → α) (rpow : α → α → α)
    (mesh : myMesh α) (a d fact : α) (N : Int) :
    ∀ (l : Smap α) (sf0 sf : Smap α),
      l.foldl (sizeStep sqrt rpow mesh a d fact N) (some (.ok sf0)) =
        some (.ok sf) →
      ∀ p ∈ l, ∃ e, Smap.find mesh.elements p.1 = some e ∧
        e.nodes.length = 3
  | [], sf0, sf, _, p, hp => by simp at hp
  | q :: t, sf0, sf, hfold, p, hp => by
    rw [List.foldl_cons] at hfold
    cases hfind : Smap.find mesh.elements q.1 with
    | none =>
      rw [show sizeStep sqrt rpow mesh a d fact N (some (.ok sf0)) q =
          none by simp [sizeStep, hfind], sizeFold_none] at hfold
      exact Option.noConfusion hfold
    | some e =>
      cases hme : e.maxEdge sqrt with
      | error ex =>
        rw [show sizeStep sqrt rpow mesh a d fact N (some (.ok sf0)) q =
            some (.error ex) by simp [sizeStep, hfind, hme],
          sizeFold_error] at hfold
        exact absurd (Option.some.inj hfold) (by simp)
      | ok me =>
        have hq3 : e.nodes.length = 3 := maxEdge_ok_three sqrt e me hme
        rcases List.mem_cons.1 hp with h | h
        · subst h
          exact ⟨e, hfind, hq3⟩
        · have hstep : sizeStep sqrt rpow mesh a d fact N
              (some (.ok sf0)) q = some (.ok (Smap.insert q.1
                (me / (rpow q.2 (2 / (2 * (1 + a))) *
                  rpow a (1 / (d * (1 + a))) *
                  rpow ((1 + a) * (N : α) / fact) (1 / d))) sf0)) := by
            simp [sizeStep, hfind, hme]
          rw [hstep] at hfold
          exact sizeFold_complete sqrt rpow mesh a d fact N t _ sf
            hfold p h

/-- C9: `myElement::maxEdge` returns the maximum of the three pairwise
node distances on a 3-node element; on any other node count it prints
"maxEdge only implemented for 3-node triangles" and terminates the
process with exit status 1; consequently `computeSizeField` runs to
completion only when every element carrying an error value exists in
the element map and is a 3-node triangle. -/
theorem maxEdge_exit_spec (sqrt : α → α) (rpow : α → α → α)
    (mesh : myMesh α) (err_ele sf_ele : Smap α) (N : Int) :
    (∀ (e : myElement α) (n0 n1 n2 : myVertex α), e.nodes = [n0, n1, n2] →
      e.maxEdge sqrt = .ok (max (n0.distance sqrt n1)
        (max (n0.distance sqrt n2) (n1.distance sqrt n2)))) ∧
    (∀ e : myElement α, e.nodes.length ≠ 3 →
      e.maxEdge sqrt =
        .error ⟨"maxEdge only implemented for 3-node triangles", 1⟩) ∧
    (∀ sf : Smap α,
      computeSizeField sqrt rpow mesh err_ele N sf_ele = some (.ok sf) →
      ∀ p ∈ err_ele, ∃ e, Smap.find mesh.elements p.1 = some e ∧
        e.nodes.length = 3) := by
  refine ⟨maxEdge_of_triple sqrt, maxEdge_of_non3 sqrt, ?_⟩
  intro sf hrun p hp
  exact sizeFold_complete sqrt rpow mesh 2 2 _ N err_ele sf_ele sf hrun p hp

/-- Witness for C9 over `ℚ` (with `sqrt = id` and `rpow x y = x`): the
3-node branch, the 2-node exit branch, and a completed
`computeSizeField` run on a one-triangle mesh. -/
theorem maxEdge_exit_spec_witness :
    (myElement.maxEdge (α := ℚ) id
        ⟨7, [⟨1, 0, 0, 0⟩, ⟨2, 1, 0, 0⟩, ⟨3, 0, 1, 0⟩],
         [0], [0], [0], [1], [0], [0], [0], [1], []⟩ = .ok 2) ∧
    (myElement.maxEdge (α := ℚ) id
        ⟨5, [⟨1, 0, 0, 0⟩, ⟨2, 1, 0, 0⟩],
         [0], [0], [0], [1], [0], [0], [0], [1], []⟩ =
      .error ⟨"maxEdge only implemented for 3-node triangles", 1⟩) ∧
    (∀ p ∈ ([(7, (1 : ℚ))] : Smap ℚ),
      ∃ e, Smap.find
        ([(7, ⟨7, [⟨1, 0, 0, 0⟩, ⟨2, 1, 0, 0⟩, ⟨3, 0, 1, 0⟩],
          [0], [0], [0], [1], [0], [0], [0], [1], []⟩)] :
            Smap (myElement ℚ)) p.1 = some e ∧ e.nodes.length = 3) := by
  have h := maxEdge_exit_spec (α := ℚ) id (fun x _ => x)
    ⟨[(1, ⟨1, 0, 0, 0⟩), (2, ⟨2, 1, 0, 0⟩), (3, ⟨3, 0, 1, 0⟩)],
     [(7, ⟨7, [⟨1, 0, 0, 0⟩, ⟨2, 1, 0, 0⟩, ⟨3, 0, 1, 0⟩],
        [0], [0], [0], [1], [0], [0], [0], [1], []⟩)]⟩
    [(7, 1)] [] 4
  refine ⟨?_, ?_, ?_⟩
  · have := h.1 ⟨7, [⟨1, 0, 0, 0⟩, ⟨2, 1, 0, 0⟩, ⟨3, 0, 1, 0⟩],
      [0], [0], [0], [1], [0], [0], [0], [1], []⟩
      ⟨1, 0, 0, 0⟩ ⟨2, 1, 0, 0⟩ ⟨3, 0, 1, 0⟩ rfl
    rw [this]
    norm_num [myVertex.distance]
  · exact h.2.1 ⟨5, [⟨1, 0, 0, 0⟩, ⟨2, 1, 0, 0⟩],
      [0], [0], [0], [1], [0], [0], [0], [1], []⟩ (by decide)
  · exact h.2.2 [(7, 1 / 3)] (by
      simp [computeSizeField, sizeStep, myElement.maxEdge,
        myVertex.distance, Smap.find, Smap.insert, max_def]
      norm_num)

/-! ## Lemmas for `getKeysValues` -/

/-- `getKeysValues` pushes exactly the map's keys and its values as
singleton vectors, whatever the initial contents of the output
vectors. -/
theorem getKeysValues_eq (f : Smap α) (keys0 : List Nat)
    (values0 : List (List α)) :
    getKeysValues f keys0 values0 =
      (f.map Prod.fst, f.map fun p => [p.2]) := by
  have gen : ∀ (l : Smap α) (ka : List Nat) (va : List (List α)),
      l.foldl (fun s p => (s.1 ++ [p.1], s.2 ++ [[p.2]])) (ka, va) =
        (ka ++ l.map Prod.fst, va ++ l.map fun p => [p.2]) := by
    intro l
    induction l with
    | nil => intro ka va; simp
    | cons p t ih =>
      intro ka va
      rw [List.foldl_cons, ih]
      simp
  unfold getKeysValues
  simpa using gen f [] []

/-- C10: `getKeysValues` first clears both output vectors, and for
every input map `f` produces keys in strictly increasing order with
exactly one entry per map element, and a values vector of the same
length in which each `values[i]` is the one-element vector containing
`f(keys[i])`.  The hypothesis is the `std::map` sorted-keys
invariant. -/
theorem getKeysValues_spec (f : Smap α) (hf : Smap.KeysSorted f) :
    (∀ (keys0 keys1 : List Nat) (values0 values1 : List (List α)),
      getKeysValues f keys0 values0 = getKeysValues f keys1 values1) ∧
    (getKeysValues f [] []).1 = Smap.keys f ∧
    List.Chain' (· < ·) (getKeysValues f [] []).1 ∧
    (getKeysValues f [] []).1.length = f.length ∧
    (getKeysValues f [] []).2.length = (getKeysValues f [] []).1.length ∧
    (∀ i, i < (getKeysValues f [] []).1.length →
      (getKeysValues f [] []).2.getD i [] =
        [Smap.findD f ((getKeysValues f [] []).1.getD i 0) 0] ∧
      Smap.find f ((getKeysValues f [] []).1.getD i 0) ≠ none) := by
  have hp : List.Pairwise (· < ·) (Smap.keys f) :=
    List.chain'_iff_pairwise.1 hf
  have heq := getKeysValues_eq f ([] : List Nat) ([] : List (List α))
  refine ⟨?_, ?_, ?_, ?_, ?_, ?_⟩
  · intro keys0 keys1 values0 values1
    rw [getKeysValues_eq, getKeysValues_eq]
  · rw [heq]
    rfl
  · rw [heq]
    exact hf
  · rw [heq]
    simp
  · rw [heq]
    simp
  · intro i hi
    rw [heq] at hi ⊢
    simp only at hi ⊢
    rw [List.length_map] at hi
    have hk : (f.map Prod.fst).getD i 0 = (f.get ⟨i, hi⟩).1 := by
      rw [List.getD_eq_getElem _ _ (by simpa using hi)]
      simp
    have hv : ((f.map fun p => [p.2]).getD i []) = [(f.get ⟨i, hi⟩).2] := by
      rw [List.getD_eq_getElem _ _ (by simpa using hi)]
      simp
    have hfind : Smap.find f (f.get ⟨i, hi⟩).1 = some (f.get ⟨i, hi⟩).2 :=
      Smap.find_of_mem hp (f.get_mem i hi)
    refine ⟨?_, ?_⟩
    · rw [hk, hv, Smap.findD, hfind]
      rfl
    · rw [hk, hfind]
      simp

/-- Witness for C10: the map `{1 ↦ 5, 3 ↦ 7}` over `ℚ`, with
non-empty initial output vectors. -/
theorem getKeysValues_spec_witness :
    getKeysValues ([(1, (5 : ℚ)), (3, 7)]) [9] [[8]] =
      getKeysValues ([(1, (5 : ℚ)), (3, 7)]) [] [] ∧
    (getKeysValues ([(1, (5 : ℚ)), (3, 7)]) [] []).1 = [1, 3] ∧
    (getKeysValues ([(1, (5 : ℚ)), (3, 7)]) [] []).2.getD 1 [] =
      [Smap.findD [(1, (5 : ℚ)), (3, 7)]
        ((getKeysValues ([(1, (5 : ℚ)), (3, 7)]) [] []).1.getD 1 0) 0] := by
  have h := getKeysValues_spec ([(1, (5 : ℚ)), (3, 7)])
    (by simp [Smap.KeysSorted, Smap.keys])
  exact ⟨h.1 [9] [] [[8]] [], by rw [h.2.1]; rfl, (h.2.2.2.2.2 1 (by
    rw [h.2.2.2.1]; norm_num)).1⟩

/-- C7: after construction, every public operation of `myVertex`,
`myElement` and `myMesh` leaves the object unchanged — each member
call, embedded as a state transformer, returns the object state
exactly as it received it, for every object state and every argument;
the containers are populated once and only read thereafter. -/
theorem accessors_read_only (sqrt : α → α) :
    (∀ s : myVertex α, (vertexTagCall s).2 = s) ∧
    (∀ s : myVertex α, (vertexXCall s).2 = s) ∧
    (∀ s : myVertex α, (vertexYCall s).2 = s) ∧
    (∀ s : myVertex α, (vertexZCall s).2 = s) ∧
    (∀ s other : myVertex α, (vertexDistanceCall sqrt s other).2 = s) ∧
    (∀ s : myElement α, (elementTagCall s).2 = s) ∧
    (∀ s : myElement α, (elementNodesCall s).2 = s) ∧
    (∀ s : myElement α, (elementQuCall s).2 = s) ∧
    (∀ s : myElement α, (elementQvCall s).2 = s) ∧
    (∀ s : myElement α, (elementQwCall s).2 = s) ∧
    (∀ s : myElement α, (elementQweightCall s).2 = s) ∧
    (∀ s : myElement α, (elementQxCall s).2 = s) ∧
    (∀ s : myElement α, (elementQyCall s).2 = s) ∧
    (∀ s : myElement α, (elementQzCall s).2 = s) ∧
    (∀ s : myElement α, (elementQdetCall s).2 = s) ∧
    (∀ s : myElement α, (elementQjacCall s).2 = s) ∧
    (∀ s : myElement α, (elementMaxEdgeCall sqrt s).2 = s) ∧
    (∀ s : myMesh α, (meshNodesCall s).2 = s) ∧
    (∀ s : myMesh α, (meshElementsCall s).2 = s) :=
  ⟨fun _ => rfl, fun _ => rfl, fun _ => rfl, fun _ => rfl,
   fun _ _ => rfl, fun _ => rfl, fun _ => rfl, fun _ => rfl,
   fun _ => rfl, fun _ => rfl, fun _ => rfl, fun _ => rfl,
   fun _ => rfl, fun _ => rfl, fun _ => rfl, fun _ => rfl,
   fun _ => rfl, fun _ => rfl, fun _ => rfl⟩

/-! ## `custom_gui.cpp`: C4 and C6 -/

/-- C4 counterexample: in `compute`'s progress block, the
`onelab::setString` call that publishes the per-thread percentage is
the first statement of the block and precedes `fltk::lock()`, so it
does not execute between `lock()` and `unlock()`: at the concrete
instance (thread parameter `"My App/Thread 1"`, `p = 1`), position 0
holds the publication and no lock is held there. -/
theorem progress_setString_outside_lock :
    ¬ setStringUnderLock (progressBlock "My App/Thread 1" 1 true) := by
  intro h
  have h0 := h 0 "My App/Thread 1" "1%" rfl
  simp [underLock, progressBlock] at h0

/-- C4 (amended): the progress block publishes the percentage via
`onelab::setString` immediately before `fltk::lock()` — outside the
lock — and what executes between `lock()` and `unlock()` is the
`logger::write` of the progress message. -/
theorem progress_block_order (arg : String) (p : Nat) (refresh : Bool) :
    (progressBlock arg p refresh)[0]? =
      some (.onelabSetString arg (toString p ++ "%")) ∧
    (progressBlock arg p refresh)[1]? = some .fltkLock ∧
    (progressBlock arg p refresh)[2]? =
      some (.loggerWrite (arg ++ " progress " ++ toString p ++ "%")) ∧
    (progressBlock arg p refresh)[3]? = some .fltkUnlock ∧
    underLock (progressBlock arg p refresh) 2 = true ∧
    underLock (progressBlock arg p refresh) 0 = false := by
  cases refresh <;> exact ⟨rfl, rfl, rfl, rfl, rfl, rfl⟩

/-- Weakening the head of a chain along a monotone relation. -/
theorem chain'_head_weaken {R : α → α → Prop}
    (hmono : ∀ a b c : α, a ≤ b → R b c → R a c) {b : α} {l : List α}
    (h : List.Chain' R (b :: l)) {a : α} (hab : a ≤ b) :
    List.Chain' R (a :: l) := by
  cases l with
  | nil => simp
  | cons c t =>
    rw [List.chain'_cons] at h ⊢
    exact ⟨hmono a b c hab h.1, h.2⟩

/-- Along a monotone clock, consecutive awake times (seeded with the
initial `last_refresh`) are separated by more than `1/10`. -/
theorem awakeTimes_chain :
    ∀ (steps : List (α × α)) (last0 : α),
      List.Chain' (· ≤ ·) (last0 :: clockTrace steps) →
      List.Chain' (awakeGap (α := α)) (last0 :: awakeTimes steps last0)
  | [], last0, _ => by simp [awakeTimes]
  | (t1, t2) :: rest, last0, h => by
    have hflat : clockTrace ((t1, t2) :: rest) =
        t1 :: t2 :: clockTrace rest := rfl
    rw [hflat, List.chain'_cons] at h
    have h1 : last0 ≤ t1 := h.1
    rw [List.chain'_cons] at h
    have h2 : t1 ≤ t2 := h.2.1
    have h3 : List.Chain' (· ≤ ·) (t2 :: clockTrace rest) := h.2.2
    unfold awakeTimes
    by_cases hc : t1 - last0 > 1 / 10
    · simp only [hc, if_true]
      rw [List.chain'_cons]
      refine ⟨by unfold awakeGap; linarith, ?_⟩
      have ih := awakeTimes_chain rest t2 h3
      exact chain'_head_weaken
        (fun a b c hab hbc => by unfold awakeGap at *; linarith) ih h2
    · simp only [hc, if_false]
      refine awakeTimes_chain rest last0 ?_
      exact chain'_head_weaken (R := fun a b : α => a ≤ b)
        (fun a b c hab hbc => le_trans hab hbc) h3 (le_trans h1 h2)

/-- A list of pairwise `awakeGap`-separated times inside `[lo, hi]`
with `hi ≤ lo + n/10 + 1/10` has at most `n + 1` entries. -/
theorem pairwise_gap_window_bound :
    ∀ (n : Nat) (l : List α) (lo hi : α),
      List.Pairwise (awakeGap (α := α)) l →
      (∀ x ∈ l, lo ≤ x ∧ x ≤ hi) →
      hi ≤ lo + (n : α) * (1 / 10) + 1 / 10 →
      l.length ≤ n + 1
  | n, [], lo, hi, _, _, _ => by simp
  | 0, a :: t, lo, hi, hp, hb, hwin => by
    cases t with
    | nil => simp
    | cons b t' =>
      exfalso
      have hgab : a + 1 / 10 < b :=
        (List.pairwise_cons.1 hp).1 b (by simp)
      have hla : lo ≤ a := (hb a (by simp)).1
      have hbb : b ≤ hi := (hb b (by simp)).2
      norm_num at hwin
      linarith
  | (n + 1), a :: t, lo, hi, hp, hb, hwin => by
    have hpt := List.pairwise_cons.1 hp
    have ih := pairwise_gap_window_bound n t (a + 1 / 10) hi hpt.2
      (fun x hx => ⟨le_of_lt (hpt.1 x hx),
        (hb x (List.mem_cons_of_mem _ hx)).2⟩)
      (by
        have hla : lo ≤ a := (hb a (by simp)).1
        push_cast at hwin ⊢
        linarith)
    simpa using Nat.succ_le_succ ih

/-- C6: in `compute`'s progress-reporting loop, `fltk::awake("update")`
is issued only when more than `0.1` seconds of wall-clock time separate
the current reading from the recorded previous refresh (the gap chain,
seeded with `last_refresh = 0`'s initial value), so along any monotone
clock the refresh requests are emitted at most 10 times within any
window `[T, T+1]` of one second. -/
theorem awake_throttled (steps : List (α × α)) (last0 : α)
    (hmono : List.Chain' (· ≤ ·) (last0 :: clockTrace steps)) :
    List.Chain' (awakeGap (α := α)) (last0 :: awakeTimes steps last0) ∧
    ∀ T : α, ((awakeTimes steps last0).filter (inWindow T)).length ≤ 10 := by
  have hchain := awakeTimes_chain steps last0 hmono
  refine ⟨hchain, ?_⟩
  intro T
  have htail : List.Chain' (awakeGap (α := α)) (awakeTimes steps last0) :=
    hchain.tail
  have hpair : List.Pairwise (awakeGap (α := α)) (awakeTimes steps last0) :=
    List.chain'_iff_pairwise.1 htail
  have hpairf : List.Pairwise (awakeGap (α := α))
      ((awakeTimes steps last0).filter (inWindow T)) :=
    hpair.filter _
  have hbounds : ∀ x ∈ (awakeTimes steps last0).filter (inWindow T),
      T ≤ x ∧ x ≤ T + 1 := by
    intro x hx
    have hw := List.of_mem_filter hx
    unfold inWindow at hw
    simpa using hw
  have hbound := pairwise_gap_window_bound 9
    ((awakeTimes steps last0).filter (inWindow T)) T (T + 1) hpairf
    hbounds (by push_cast; linarith)
  simpa using hbound

/-- Witness for C6: two progress blocks at wall times `0.2` and `0.4`
seconds with `last_refresh` initially `0`. -/
theorem awake_throttled_witness :
    List.Chain' (awakeGap (α := ℚ))
      (0 :: awakeTimes [((2 : ℚ) / 10, 2 / 10), (4 / 10, 4 / 10)] 0) ∧
    ((awakeTimes [((2 : ℚ) / 10, 2 / 10), (4 / 10, 4 / 10)] 0).filter
      (inWindow 0)).length ≤ 10 := by
  have h := awake_throttled [((2 : ℚ) / 10, 2 / 10), (4 / 10, 4 / 10)] 0
    (by norm_num [clockTrace, List.chain'_cons])
  exact ⟨h.1, h.2 0⟩

/-! ## Lifecycle (C3), error-code checking (C2), try/catch (C5) -/

/-- C3 counterexample: the catch branch of `t16.cpp` returns from
`main` without calling `gmsh::finalize()`, so the lifecycle discipline
fails on that early-exit path (and hence on the whole corpus:
`simple.c` and `fragment_surfaces.cpp` never call finalize at all, and
`edges.cpp`, `faces.cpp` and `t16.c` also have finalize-less exits). -/
theorem lifecycle_counterexample :
    t16_cpp ∈ allExamples ∧
    noFinalizePath ∈ t16_cpp.paths ∧
    goodLifecycle noFinalizePath = false ∧
    (allExamples.all fun ex => ex.paths.all goodLifecycle) = false := by
  decide

/-- C3 (amended): every example calls `gmsh::initialize` /
`gmshInitialize` before any other Gmsh API call on every path, and
`finalize` is called before the path ends on every path except:
`simple.c` and `fragment_surfaces.cpp` (which never call finalize),
the failure early-exit paths of `edges.cpp`, `faces.cpp`, `t16.cpp`
and `t16.c` (which return without finalize), and the argument-check /
`-nopopup` early exits of `explore.cpp`, `gui.cpp`,
`onelab_run_auto.c`, `onelab_run_auto.cpp`, `open.cpp` and `x1.cpp`
(which return before any Gmsh call is made).  Each listed exception is
a real path of the named example and indeed lacks the finalize call. -/
theorem lifecycle_amended :
    (allExamples.all fun ex => ex.paths.all gmshCallFirstIsInit) = true ∧
    (allExamples.all fun ex => ex.paths.all fun p =>
      p.contains .finalizeCall ||
        decide ((ex.name, p) ∈ finalizeExceptions)) = true ∧
    (finalizeExceptions.all fun ep =>
      decide (∃ ex ∈ allExamples, ex.name = ep.1 ∧ ep.2 ∈ ex.paths) &&
        !(ep.2.contains .finalizeCall)) = true := by
  refine ⟨by decide, by decide, by decide⟩

/-- C2 counterexample: `simple.c` is a C example in which the
`ierr`-taking call `gmshInitialize` (and every other call) is not
followed by `chk(ierr)`; the corpus-wide claim therefore fails.
Moreover the `chk` macro of `test.c` prints the line and function but
not the file. -/
theorem chk_counterexample :
    ("simple.c", simple_c_calls) ∈ cExamples ∧
    unchecked "gmshInitialize" ∈ simple_c_calls ∧
    (unchecked "gmshInitialize").takesIerr = true ∧
    (unchecked "gmshInitialize").chkAfter = false ∧
    (cExamples.all fun fc => fc.2.all fun c =>
      !c.takesIerr || c.chkAfter) = false ∧
    chkTest 1 = .abort ⟨true, true, false, true, 0⟩ := by
  refine ⟨by decide, by decide, rfl, rfl, by decide, by decide⟩

/-- C2 (amended): among the eight C examples, exactly `test.c` and
`onelab_run_auto.c` check the out-parameter error code after every
Gmsh API call that takes one, via a `chk(ierr)` macro which, on a
non-zero code, prints the line and function (not the file), calls
`gmshFinalize`, and exits (with status 0 in `test.c`, and with the
error code in `onelab_run_auto.c`); each of the six other C examples
contains `ierr`-taking calls that are never checked. -/
theorem chk_usage_amended :
    (test_c_calls.all fun c => !c.takesIerr || c.chkAfter) = true ∧
    (onelab_run_auto_c_calls.all fun c =>
      !c.takesIerr || c.chkAfter) = true ∧
    (∀ ierr : Int, ierr ≠ 0 →
      chkTest ierr = .abort ⟨true, true, false, true, 0⟩ ∧
      chkOnelab ierr = .abort ⟨true, true, false, true, ierr⟩) ∧
    chkTest 0 = .proceed ∧ chkOnelab 0 = .proceed ∧
    ([("simple.c", simple_c_calls), ("import_perf.c", import_perf_c_calls),
      ("t1.c", t1_c_calls), ("t2.c", t2_c_calls), ("t6.c", t6_c_calls),
      ("t16.c", t16_c_calls)].all fun fc =>
        fc.2.any fun c => c.takesIerr && !c.chkAfter) = true := by
  refine ⟨by decide, by decide, ?_, rfl, rfl, by decide⟩
  intro ierr h
  constructor
  · unfold chkTest
    simp [h]
  · unfold chkOnelab
    simp [h]

/-- Witness for the amended C2: the macro behaviour at the concrete
non-zero code 5. -/
theorem chk_usage_amended_witness :
    chkTest 5 = .abort ⟨true, true, false, true, 0⟩ ∧
    chkOnelab 5 = .abort ⟨true, true, false, true, 5⟩ :=
  chk_usage_amended.2.2.1 5 (by norm_num)

/-- C5: in every C++ example that wraps geometry or file-loading calls
in `try`/`catch` (`t7.cpp`, `t8.cpp`, `t9.cpp`, `t16.cpp`, `t17.cpp`,
`t20.cpp`), whenever a guarded call throws, the program runs exactly
the catch branch: it writes a diagnostic message and `main` returns,
and none of the remaining geometry or meshing steps execute. -/
theorem trycatch_spec : ∀ ex ∈ tryCatchExamples,
    mainEvents ex true = ex.pre ++ ex.onCatch ∧
    CppEvent.diagnostic ∈ ex.onCatch ∧
    ex.onCatch.getLast? = some .ret ∧
    ex.onCatch.filter isGeoOrMesh = [] := by
  decide

/-- Witness for C5: the throwing run of `t7.cpp`. -/
theorem trycatch_spec_witness :
    mainEvents t7_cpp_tc true = t7_cpp_tc.pre ++ t7_cpp_tc.onCatch ∧
    CppEvent.diagnostic ∈ t7_cpp_tc.onCatch ∧
    t7_cpp_tc.onCatch.getLast? = some .ret ∧
    t7_cpp_tc.onCatch.filter isGeoOrMesh = [] :=
  trycatch_spec t7_cpp_tc (by decide)

end GmshDoc
